import Mathlib

/-!
Verification development for the aquarium simulation
(fish flocking, water height-field, kelp chains, procedural fish mesh).

The JavaScript sources are shallowly embedded:
real-number arithmetic replaces IEEE doubles, vectors are triples of reals,
JS arrays become Lean lists, and in-place loops become folds that thread the
mutated state.  Library functions of three.js that the repository calls
(vector algebra, quaternion rotation, Catmull-Rom sampling, geometry merging)
are modelled from the library code, since they are not part of the repository
itself; every such definition is marked in its doc comment.
-/

namespace Aquarium

/-- Model of THREE.Vector3: a triple of real coordinates. -/
structure Vec3 where
  x : ℝ
  y : ℝ
  z : ℝ

namespace Vec3

/-- The zero vector (new THREE.Vector3()). -/
def zero : Vec3 := ⟨0, 0, 0⟩

/-- Modelled from three.js Vector3.add. -/
def add (a b : Vec3) : Vec3 := ⟨a.x + b.x, a.y + b.y, a.z + b.z⟩

/-- Modelled from three.js Vector3.sub / subVectors. -/
def sub (a b : Vec3) : Vec3 := ⟨a.x - b.x, a.y - b.y, a.z - b.z⟩

/-- Modelled from three.js Vector3.multiplyScalar. -/
def multiplyScalar (a : Vec3) (s : ℝ) : Vec3 := ⟨a.x * s, a.y * s, a.z * s⟩

/-- Modelled from three.js Vector3.divideScalar (multiplies by the inverse). -/
noncomputable def divideScalar (a : Vec3) (s : ℝ) : Vec3 := a.multiplyScalar (1 / s)

/-- Modelled from three.js Vector3.lengthSq: x*x + y*y + z*z. -/
def lengthSq (a : Vec3) : ℝ := a.x * a.x + a.y * a.y + a.z * a.z

/-- Modelled from three.js Vector3.length: the square root of lengthSq. -/
noncomputable def length (a : Vec3) : ℝ := Real.sqrt a.lengthSq

/-- Modelled from three.js Vector3.normalize: divide by (length or 1 when the
length is zero) — the JS idiom divideScalar(this.length() or 1). -/
noncomputable def normalize (a : Vec3) : Vec3 :=
  a.divideScalar (if a.length = 0 then 1 else a.length)

/-- Modelled from three.js Vector3.lerp: this + (v - this) * alpha. -/
def lerp (a v : Vec3) (alpha : ℝ) : Vec3 :=
  ⟨a.x + (v.x - a.x) * alpha, a.y + (v.y - a.y) * alpha, a.z + (v.z - a.z) * alpha⟩

/-- Modelled from three.js Vector3.distanceToSquared. -/
def distanceToSquared (a v : Vec3) : ℝ := (a.sub v).lengthSq

/-- Modelled from three.js Vector3.distanceTo. -/
noncomputable def distanceTo (a v : Vec3) : ℝ := Real.sqrt (a.distanceToSquared v)

/-- Modelled from three.js Vector3.dot. -/
def dot (a v : Vec3) : ℝ := a.x * v.x + a.y * v.y + a.z * v.z

/-- Modelled from three.js Vector3.cross. -/
def cross (a v : Vec3) : Vec3 :=
  ⟨a.y * v.z - a.z * v.y, a.z * v.x - a.x * v.z, a.x * v.y - a.y * v.x⟩

/-- Modelled from three.js Vector3.addScaledVector: this + v * s. -/
def addScaledVector (a v : Vec3) (s : ℝ) : Vec3 := a.add (v.multiplyScalar s)

/-- Modelled from three.js Vector3.setY (used by the kelp push force). -/
def setY (a : Vec3) (v : ℝ) : Vec3 := ⟨a.x, v, a.z⟩

end Vec3

/-- Model of THREE.Quaternion (only the parts the repository uses). -/
structure Quat where
  qx : ℝ
  qy : ℝ
  qz : ℝ
  qw : ℝ

namespace Quat

/-- Modelled from three.js Quaternion.setFromAxisAngle: the axis is assumed to
be normalized by the caller; q = (axis * sin(angle/2), cos(angle/2)). -/
noncomputable def setFromAxisAngle (axis : Vec3) (angle : ℝ) : Quat :=
  let s := Real.sin (angle / 2)
  ⟨axis.x * s, axis.y * s, axis.z * s, Real.cos (angle / 2)⟩

/-- Squared 4-norm of a quaternion. -/
def normSq (q : Quat) : ℝ := q.qx * q.qx + q.qy * q.qy + q.qz * q.qz + q.qw * q.qw

end Quat

namespace Vec3

/-- Modelled from three.js Vector3.applyQuaternion:
t = 2 * cross(q.xyz, v); result = v + q.w * t + cross(q.xyz, t). -/
def applyQuaternion (v : Vec3) (q : Quat) : Vec3 :=
  let tx := 2 * (q.qy * v.z - q.qz * v.y)
  let ty := 2 * (q.qz * v.x - q.qx * v.z)
  let tz := 2 * (q.qx * v.y - q.qy * v.x)
  ⟨v.x + q.qw * tx + q.qy * tz - q.qz * ty,
   v.y + q.qw * ty + q.qz * tx - q.qx * tz,
   v.z + q.qw * tz + q.qx * ty - q.qy * tx⟩

/-- Modelled from three.js Vector3.applyAxisAngle (does not normalize the axis
itself; callers pass an already normalized axis). -/
noncomputable def applyAxisAngle (v axis : Vec3) (angle : ℝ) : Vec3 :=
  v.applyQuaternion (Quat.setFromAxisAngle axis angle)

end Vec3

/-! Aquarium constants and GUI parameters, from src/main.js. -/

/-- Aquarium width (src/main.js: aqWidth = 20). -/
def aqWidth : ℝ := 20

/-- Aquarium height (src/main.js: aqHeight = 10). -/
def aqHeight : ℝ := 10

/-- Aquarium depth (src/main.js: aqDepth = 16). -/
def aqDepth : ℝ := 16

/-- Motion-bounds inset margin (src/main.js: margin = 2). -/
def margin : ℝ := 2

/-- Half-extent of the motion bounds on x (src/main.js: halfX = aqWidth/2 - margin). -/
noncomputable def halfX : ℝ := aqWidth / 2 - margin

/-- Half-extent of the motion bounds on y (src/main.js: halfY = aqHeight/2 - margin). -/
noncomputable def halfY : ℝ := aqHeight / 2 - margin

/-- Half-extent of the motion bounds on z (src/main.js: halfZ = aqDepth/2 - margin). -/
noncomputable def halfZ : ℝ := aqDepth / 2 - margin

/-- GUI parameters that feed the flock physics (src/main.js: params object). -/
structure Params where
  fishSpeed : ℝ
  turnSpeed : ℝ
  separationDist : ℝ
  separationStrength : ℝ

/-- The default parameter values from src/main.js. -/
def defaultParams : Params :=
  { fishSpeed := 2, turnSpeed := 1.5, separationDist := 1.0, separationStrength := 2.0 }

/-- Modelled from THREE.MathUtils.clamp: max(min, min(max, value)). -/
noncomputable def clamp (value lo hi : ℝ) : ℝ := max lo (min hi value)

/-! The flock agent per-tick update, from the animation loop of src/main.js
(steering integration lines 558-611: desired direction, acceleration
integration, normalize-lerp-normalize-rescale steering, move, per-axis wall
bounce with clamp, and a random-axis rotation when any axis bounced). -/

/-- Mutable per-agent state: position, velocity, acceleration
(src/main.js fishData entries; mass and radius are carried separately). -/
structure FishState where
  pos : Vec3
  vel : Vec3
  accel : Vec3

/-- The steering interpolation vector before the final normalize:
normalize(vel + accel*delta) lerped toward the normalized direction to the
target by turnSpeed*delta (src/main.js lines 563-570). -/
noncomputable def steerLerp (prm : Params) (delta : ℝ) (target : Vec3)
    (st : FishState) : Vec3 :=
  let desiredDir := ((target.sub st.pos)).normalize
  let vel1 := st.vel.add (st.accel.multiplyScalar delta)
  (vel1.normalize).lerp desiredDir (prm.turnSpeed * delta)

/-- Per-axis wall bounce (src/main.js lines 579-593): if the coordinate left
the interval, negate that velocity component and clamp the coordinate.
Returns (position coordinate, velocity coordinate, bounced flag). -/
noncomputable def bounceAxis (p v half : ℝ) : ℝ × ℝ × Bool :=
  if p < -half ∨ half < p then (clamp p (-half) half, -v, true) else (p, v, false)

/-- One tick of a single agent (src/main.js animation loop, phase 2).
The random bounce axis and angle are external inputs, as is the target. -/
noncomputable def fishTick (prm : Params) (delta : ℝ) (target rndAxis : Vec3)
    (rndAngle : ℝ) (st : FishState) : FishState :=
  let vel2 := ((steerLerp prm delta target st).normalize).multiplyScalar prm.fishSpeed
  let pos1 := st.pos.addScaledVector vel2 delta
  let bx := bounceAxis pos1.x vel2.x halfX
  let by' := bounceAxis pos1.y vel2.y halfY
  let bz := bounceAxis pos1.z vel2.z halfZ
  let pos2 : Vec3 := ⟨bx.1, by'.1, bz.1⟩
  let vel3 : Vec3 := ⟨bx.2.1, by'.2.1, bz.2.1⟩
  let bounced := bx.2.2 || by'.2.2 || bz.2.2
  let vel4 := if bounced then vel3.applyAxisAngle rndAxis.normalize rndAngle else vel3
  { pos := pos2, vel := vel4, accel := st.accel }

/-! Separation forces, from phase 1 of the src/main.js animation loop
(lines 536-555): for every ordered pair (i, j) with i different from j and
0 < dist < separationDist, a spring force of magnitude
separationStrength * (separationDist - dist) directed from agent j toward
agent i is divided by the mass of agent i and accumulated into the
acceleration of agent i (reset to zero at the start of the tick). -/

/-- Inner forEach of the separation loop: accumulate the repulsion from every
other agent into the acceleration of agent i (position pA, mass mA). -/
noncomputable def sepInner (prm : Params) (pA : Vec3) (mA : ℝ) (i : ℕ) :
    ℕ → List (Vec3 × ℝ) → Vec3 → Vec3
  | _, [], acc => acc
  | j, fb :: rest, acc =>
    let acc1 :=
      if i = j then acc
      else
        let offset := pA.sub fb.1
        let dist := offset.length
        if 0 < dist ∧ dist < prm.separationDist then
          acc.add (((offset.normalize).multiplyScalar
            (prm.separationStrength * (prm.separationDist - dist))).divideScalar mA)
        else acc
    sepInner prm pA mA i (j + 1) rest acc1

/-- Outer forEach of the separation loop. -/
noncomputable def sepOuter (prm : Params) (all : List (Vec3 × ℝ)) :
    ℕ → List (Vec3 × ℝ) → List Vec3
  | _, [] => []
  | i, fa :: rest => sepInner prm fa.1 fa.2 i 0 all Vec3.zero :: sepOuter prm all (i + 1) rest

/-- The per-agent accelerations produced by the separation phase, one entry
per agent given as a (position, mass) pair. -/
noncomputable def separationAccels (prm : Params) (fish : List (Vec3 × ℝ)) : List Vec3 :=
  sepOuter prm fish 0 fish

/-! The kelp chain simulator, from src/unnamed/part_000 (SEGMENTS, PLANT_LEN,
the kelp block of the animation loop: pin base, fish repulsion, spring and
sway integration, length constraint pass). -/

/-- Number of chain points per plant (src/unnamed/part_000: SEGMENTS = 12). -/
def SEGMENTS : ℕ := 12

/-- Total plant length (src/unnamed/part_000: PLANT_LEN = 2.5). -/
noncomputable def PLANT_LEN : ℝ := 2.5

/-- Spring constant of the kelp (kelpSpring = 60). -/
noncomputable def kelpSpring : ℝ := 60

/-- Damping constant of the kelp (kelpDamping = 7.2). -/
noncomputable def kelpDamping : ℝ := 7.2

/-- The enforced joint length: PLANT_LEN / (SEGMENTS - 1). -/
noncomputable def jointLength : ℝ := PLANT_LEN / ((SEGMENTS : ℝ) - 1)

/-- A kelp plant: anchor, chain points and their velocities
(src/unnamed/part_000: seaPlants entries). -/
structure Plant where
  base : Vec3
  points : List Vec3
  velocities : List Vec3

/-- Fish repulsion on the kelp (step 2 of the kelp block): every chain point
j at distance below 0.55 from the fish gains an impulse of magnitude 0.09
away from the fish (horizontal), with its y component then set to 0.04. -/
noncomputable def kelpPush (pts : List Vec3) (fishPos : Vec3) (vels : List Vec3) :
    List Vec3 :=
  vels.mapIdx (fun j v =>
    if j = 0 then v
    else if (pts.getD j Vec3.zero).distanceTo fishPos < 0.55 then
      let push := ((((pts.getD j Vec3.zero).sub fishPos).setY 0).normalize).multiplyScalar 0.09
      v.add ⟨push.x, 0.04, push.z⟩
    else v)

/-- Spring and idle-sway integration of the chain (step 3 of the kelp block),
walking the pairs (point, velocity) for j = 1, 2, ... with the already
updated predecessor point threaded through; the two clock.getDelta() calls
of each iteration are external inputs (dts j). -/
noncomputable def kelpSpringLoop (baseX now : ℝ) (dts : ℕ → ℝ × ℝ) :
    ℕ → Vec3 → List (Vec3 × Vec3) → List (Vec3 × Vec3)
  | _, _, [] => []
  | j, prev, (curr, vel) :: rest =>
    let t : ℝ := (j : ℝ) / ((SEGMENTS : ℝ) - 1)
    let sway := Real.sin (now * 0.0007 + baseX * 0.2 + t * 2.2) * 0.0002 * (0.5 + t)
    let target := prev.add ((Vec3.mk sway jointLength 0).applyAxisAngle ⟨0, 1, 0⟩ (sway * 2))
    let diff := target.sub curr
    let vel1 := vel.add (diff.multiplyScalar (kelpSpring * (dts j).1))
    let vel2 := vel1.multiplyScalar (Real.exp (-kelpDamping * (dts j).2))
    let curr1 := curr.add vel2
    (curr1, vel2) :: kelpSpringLoop baseX now dts (j + 1) curr1 rest

/-- Length constraint pass (step 4 of the kelp block): each point is rewritten
to lie at distance jointLength from its already corrected predecessor, along
the direction from the predecessor to the point. -/
noncomputable def kelpConstrain : Vec3 → List Vec3 → List Vec3
  | _, [] => []
  | prev, curr :: rest =>
    let dir := (curr.sub prev).normalize
    let curr1 := prev.add (dir.multiplyScalar jointLength)
    curr1 :: kelpConstrain curr1 rest

/-- One tick of a kelp plant (src/unnamed/part_000 animation loop, kelp block):
pin the base (point 0 and velocity 0), apply fish pushes, integrate the
springs, then run the length constraint pass. -/
noncomputable def kelpTick (now : ℝ) (dts : ℕ → ℝ × ℝ) (fishPositions : List Vec3)
    (p : Plant) : Plant :=
  let pts0 := p.points.set 0 p.base
  let vels0 := p.velocities.set 0 Vec3.zero
  let vels1 := fishPositions.foldl (fun vs f => kelpPush pts0 f vs) vels0
  match pts0 with
  | [] => { base := p.base, points := [], velocities := vels1 }
  | h :: t =>
    let tail1 := kelpSpringLoop p.base.x now dts 1 h (t.zip vels1.tail)
    let vels2 := vels1.headD Vec3.zero :: tail1.map Prod.snd
    let pts2 := h :: kelpConstrain h (tail1.map Prod.fst)
    { base := p.base, points := pts2, velocities := vels2 }

/-! The water height-field solver, from src/main.js (WATER_RES_X, WATER_RES_Z,
WAVE_SPEED, DAMPING, updateWaterPhysics, disturbWater). Heights and
velocities are arrays of arrays, here lists of lists of rationals; the double
loop of updateWaterPhysics mutates them in place in ascending (x, z) scan
order, so a cell Laplacian reads the already updated heights of the cells
scanned before it in the same tick. -/

/-- Water grid resolution in x (src/main.js: WATER_RES_X = 64). -/
def WATER_RES_X : ℕ := 64

/-- Water grid resolution in z (src/main.js: WATER_RES_Z = 64). -/
def WATER_RES_Z : ℕ := 64

/-- Wave propagation constant (src/main.js: WAVE_SPEED = 2.0). -/
def WAVE_SPEED : ℚ := 2

/-- Per-tick velocity damping (src/main.js: DAMPING = 0.995). -/
def DAMPING : ℚ := 0.995

/-- Read grid[x][z] (0 outside the stored lists). -/
def gget (g : List (List ℚ)) (x z : ℕ) : ℚ := (g.getD x []).getD z 0

/-- Write grid[x][z]. -/
def gset (g : List (List ℚ)) (x z : ℕ) (v : ℚ) : List (List ℚ) :=
  g.set x ((g.getD x []).set z v)

/-- The waterHeights and waterVelocities arrays of src/main.js. -/
structure WaterState where
  heights : List (List ℚ)
  velocities : List (List ℚ)
deriving DecidableEq

/-- The scan order of the double loop of updateWaterPhysics:
x = 1 .. WATER_RES_X - 2 outer, z = 1 .. WATER_RES_Z - 2 inner. -/
def waterCells : List (ℕ × ℕ) :=
  (List.range' 1 (WATER_RES_X - 2)).flatMap
    (fun x => (List.range' 1 (WATER_RES_Z - 2)).map (fun z => (x, z)))

/-- The loop body of updateWaterPhysics (src/main.js lines 140-148): Laplacian
from the current heights, velocity update and damping, height update with the
new velocity, written back in place. -/
def waterCellUpd (delta : ℚ) (s : WaterState) (xz : ℕ × ℕ) : WaterState :=
  let x := xz.1
  let z := xz.2
  let laplacian := (gget s.heights (x-1) z + gget s.heights (x+1) z +
      gget s.heights x (z-1) + gget s.heights x (z+1)) / 4 - gget s.heights x z
  let v1 := (gget s.velocities x z + laplacian * WAVE_SPEED * delta) * DAMPING
  let h1 := gget s.heights x z + v1 * delta
  { heights := gset s.heights x z h1, velocities := gset s.velocities x z v1 }

/-- updateWaterPhysics (src/main.js lines 137-151): the in-place double loop
over all interior cells in scan order. -/
def updateWaterPhysics (delta : ℚ) (s : WaterState) : WaterState :=
  waterCells.foldl (waterCellUpd delta) s

/-- Modelled from the spec for the refinement claim: the cell update of a
synchronous wave step, whose Laplacian reads a FIXED pre-tick height grid h0
rather than the in-place current one. -/
def waterCellUpdSyncFrom (h0 : List (List ℚ)) (delta : ℚ) (s : WaterState)
    (xz : ℕ × ℕ) : WaterState :=
  let x := xz.1
  let z := xz.2
  let laplacian := (gget h0 (x-1) z + gget h0 (x+1) z +
      gget h0 x (z-1) + gget h0 x (z+1)) / 4 - gget h0 x z
  let v1 := (gget s.velocities x z + laplacian * WAVE_SPEED * delta) * DAMPING
  let h1 := gget s.heights x z + v1 * delta
  { heights := gset s.heights x z h1, velocities := gset s.velocities x z v1 }

/-- Modelled from the spec for the refinement claim: a synchronous wave step
computes every cell Laplacian from the previous tick heights only (the
pre-step height grid), instead of the in-place current grid. -/
def updateWaterPhysicsSync (delta : ℚ) (s : WaterState) : WaterState :=
  waterCells.foldl (waterCellUpdSyncFrom s.heights delta) s

/-- The water grid at rest: all heights and velocities zero
(src/main.js lines 123-132). -/
def waterRest : WaterState :=
  { heights := List.replicate 64 (List.replicate 64 0),
    velocities := List.replicate 64 (List.replicate 64 0) }

/-- disturbWater (src/main.js lines 153-160): map the world coordinate into a
grid cell and add the impulse to that cell velocity, interior cells only. -/
def disturbWater (worldX worldZ strength : ℚ) (s : WaterState) : WaterState :=
  let ix : ℤ := Int.floor ((worldX / 20 + 0.5) * (WATER_RES_X : ℚ))
  let iz : ℤ := Int.floor ((worldZ / 16 + 0.5) * (WATER_RES_Z : ℚ))
  if 0 < ix ∧ ix < (WATER_RES_X : ℤ) - 1 ∧ 0 < iz ∧ iz < (WATER_RES_Z : ℤ) - 1 then
    { heights := s.heights,
      velocities := gset s.velocities ix.toNat iz.toNat
        (gget s.velocities ix.toNat iz.toNat + strength) }
  else s

/-- A 64 x 64 grid: outer length 64 and every stored row of length 64. -/
def Sized (g : List (List ℚ)) : Prop :=
  g.length = 64 ∧ ∀ x, x < 64 → (g.getD x []).length = 64

/-- The claim C9 scenario: the grid at rest except a unit height at the far
interior corner cell (62, 62), velocities all zero. -/
def waterCorner : WaterState :=
  { heights := gset waterRest.heights 62 62 1, velocities := waterRest.velocities }

/-- State after the in-place scan has processed cell (61, 62) of waterCorner. -/
def waterCornerB : WaterState :=
  { heights := gset waterCorner.heights 61 62 (199/400),
    velocities := gset waterCorner.velocities 61 62 (199/400) }

/-- State after the in-place scan has also processed cell (62, 61). -/
def waterCornerC : WaterState :=
  { heights := gset waterCornerB.heights 62 61 (199/400),
    velocities := gset waterCornerB.velocities 62 61 (199/400) }

/-! The axial curve lookup of src/fish.js (the inner getPoint of
createFishGeometry, lines 394-404): walk the sampled polyline, and when some
segment [points i .x, points i+1 .x] brackets the query x, return the linear
interpolation; when no segment brackets it the loop falls through and the
JS function returns undefined. -/

/-- The possible outcomes of calling the JS lookup: it can return a point,
return undefined (fall off the end of the function), or raise an error.
The embedded source never raises. -/
inductive LookupOutcome where
  | point (p : Vec3)
  | undefinedValue
  | raised (msg : String)

/-- Modelled from three.js Vector3.lerpVectors: v1 + (v2 - v1) * alpha. -/
def lerpVectors (v1 v2 : Vec3) (alpha : ℝ) : Vec3 :=
  ⟨v1.x + (v2.x - v1.x) * alpha, v1.y + (v2.y - v1.y) * alpha,
   v1.z + (v2.z - v1.z) * alpha⟩

namespace FishGeometry

/-- The axial lookup of src/fish.js lines 394-404: for i over consecutive
pairs, if points i .x <= x <= points i+1 .x return the lerp at parameter
(x - i1.x)/(i2.x - i1.x); otherwise continue; falling through returns the JS
value undefined. -/
noncomputable def getPoint : List Vec3 → ℝ → LookupOutcome
  | i1 :: i2 :: rest, x =>
    if i1.x ≤ x ∧ x ≤ i2.x then
      .point (lerpVectors i1 i2 ((x - i1.x) / (i2.x - i1.x)))
    else getPoint (i2 :: rest) x
  | _, _ => .undefinedValue

end FishGeometry

/-! Fish population management, from src/main.js (the global fishData and
targets lists, pickNewTarget lines 293-299, updateFishCount lines 301-326,
and the retargeting in the animation loop line 610). -/

/-- The physics fields of a fishData entry (mesh and material are
presentation-side state and carry no simulation data used by the claims). -/
structure Fish where
  pos : Vec3
  vel : Vec3
  accel : Vec3
  mass : ℝ
  radius : ℝ

/-- The two parallel global lists of src/main.js. A target slot is an Option
because a JS array read outside the filled range yields undefined. -/
structure SimState where
  fishData : List Fish
  targets : List (Option Vec3)

/-- JS array index assignment, targets[i] = v: overwrite when i is inside the
array, append when i equals the length, and pad with holes beyond. -/
def jsSet (l : List (Option Vec3)) (i : ℕ) (v : Vec3) : List (Option Vec3) :=
  if i < l.length then l.set i (some v)
  else l ++ List.replicate (i - l.length) none ++ [some v]

/-- pickNewTarget(i) (src/main.js lines 293-299): store a fresh random target
(an external input here) in slot i of the targets array. -/
def pickNewTarget (i : ℕ) (t : Vec3) (s : SimState) : SimState :=
  { s with targets := jsSet s.targets i t }

/-- One iteration of the removal loop of updateFishCount: pop the last entry
from both lists. -/
def removeFish (s : SimState) : SimState :=
  { fishData := s.fishData.dropLast, targets := s.targets.dropLast }

/-- One iteration of the creation loop of updateFishCount: push a new fish
and then pickNewTarget(fishData.length - 1). -/
def addFish (f : Fish) (t : Vec3) (s : SimState) : SimState :=
  let s1 : SimState := { s with fishData := s.fishData ++ [f] }
  pickNewTarget (s1.fishData.length - 1) t s1

/-- updateFishCount (src/main.js lines 301-326): pop entries while above the
requested count, then push new fish while below it. The created fish and
their random targets are external inputs indexed by the length at creation
time. -/
def updateFishCount (count : ℕ) (mkFish : ℕ → Fish) (mkTarget : ℕ → Vec3)
    (s : SimState) : SimState :=
  if count < s.fishData.length then
    updateFishCount count mkFish mkTarget (removeFish s)
  else if s.fishData.length < count then
    updateFishCount count mkFish mkTarget
      (addFish (mkFish s.fishData.length) (mkTarget s.fishData.length) s)
  else s
termination_by (s.fishData.length - count) + (count - s.fishData.length)
decreasing_by
  · have : (removeFish s).fishData.length = s.fishData.length - 1 := by
      show s.fishData.dropLast.length = _
      rw [List.length_dropLast]
    omega
  · have : (addFish (mkFish s.fishData.length) (mkTarget s.fishData.length)
        s).fishData.length = s.fishData.length + 1 := by
      show ((s.fishData ++ [mkFish s.fishData.length])).length = _
      rw [List.length_append]
      rfl
    omega

/-- States reachable by the program: both lists start empty, the GUI applies
population edits (updateFishCount) between ticks, and the animation loop
reassigns the target of a live agent index when it reaches its target. -/
inductive Reachable : SimState → Prop where
  | init : Reachable { fishData := [], targets := [] }
  | popEdit (count : ℕ) (mkFish : ℕ → Fish) (mkTarget : ℕ → Vec3) {s : SimState} :
      Reachable s → Reachable (updateFishCount count mkFish mkTarget s)
  | retarget (i : ℕ) (t : Vec3) {s : SimState} (hi : i < s.fishData.length) :
      Reachable s → Reachable (pickNewTarget i t s)

/-- The list invariant behind claim C10: both lists have the same length and
no target slot is a hole. -/
def TargetsInv (s : SimState) : Prop :=
  s.targets.length = s.fishData.length ∧ ∀ o ∈ s.targets, o.isSome

/-! Mesh assembly, as used by createFishGeometry (src/fish.js): every submesh
(body frame stack, tail, dorsal, rect and pelvic fins) is a PlaneGeometry
whose position and parts attributes are replaced by setAttribute, keeping the
grid triangulation index; BufferGeometryUtils.mergeGeometries concatenates
the attributes and appends each index list offset by the running vertex
count. -/

/-- The parts of a three.js BufferGeometry that the merge claim concerns:
vertex positions, the per-vertex part tag, and the triangle index list. -/
structure BufferGeom where
  position : List Vec3
  parts : List ℝ
  index : List ℕ

/-- Modelled from three.js PlaneGeometry: the grid triangulation index for
gridX by gridY cells over (gridX+1) * (gridY+1) vertices; per cell the two
triangles (a, b, d) and (b, c, d). -/
def planeIndices (gridX gridY : ℕ) : List ℕ :=
  (List.range gridY).flatMap (fun iy =>
    (List.range gridX).flatMap (fun ix =>
      [ix + (gridX + 1) * iy,
       ix + (gridX + 1) * (iy + 1),
       (ix + 1) + (gridX + 1) * iy,
       ix + (gridX + 1) * (iy + 1),
       (ix + 1) + (gridX + 1) * (iy + 1),
       (ix + 1) + (gridX + 1) * iy]))

/-- Modelled from three.js BufferGeometryUtils.mergeGeometries: concatenate
the vertex attributes and append each geometry index offset by the number of
vertices merged before it. -/
def mergeGeometries (gs : List BufferGeom) : BufferGeom :=
  gs.foldl (fun acc g =>
    { position := acc.position ++ g.position,
      parts := acc.parts ++ g.parts,
      index := acc.index ++ g.index.map (fun i => i + acc.position.length) })
    { position := [], parts := [], index := [] }

/-- A concrete two-vertex sub-geometry used by the merge witness. -/
def demoGeomA : BufferGeom :=
  { position := [Vec3.zero, ⟨1, 0, 0⟩], parts := [0, 0], index := [0, 1] }

/-- A concrete one-vertex sub-geometry used by the merge witness. -/
def demoGeomB : BufferGeom :=
  { position := [⟨2, 0, 0⟩], parts := [1], index := [0] }

namespace ThreeCurve

/-! The curve sampler, modelled from the three.js library functions that
src/fish.js calls (CatmullRomCurve3 with its default centripetal type, and
Curve.getSpacedPoints / getPointAt / getUtoTmapping / getLengths). These are
library code, not repository code; they are embedded here because the
sampler claims are decided by them, and the repository itself relies on
their behavior (it indexes sample 100 of getSpacedPoints(100)). -/

/-- Modelled from three.js CubicPoly.init: the coefficients (c0, c1, c2, c3)
of the cubic with calc(0) = x0, calc(1) = x1 and end tangents t0, t1. -/
def cubicCoeffs (x0 x1 t0 t1 : ℝ) : ℝ × ℝ × ℝ × ℝ :=
  (x0, t0, -3*x0 + 3*x1 - 2*t0 - t1, 2*x0 - 2*x1 + t0 + t1)

/-- Modelled from three.js CubicPoly.calc: c0 + c1 t + c2 t^2 + c3 t^3. -/
def cubicCalc (c : ℝ × ℝ × ℝ × ℝ) (t : ℝ) : ℝ :=
  c.1 + c.2.1 * t + c.2.2.1 * (t * t) + c.2.2.2 * (t * t * t)

/-- Modelled from three.js CubicPoly.initNonuniformCatmullRom: knot-scaled
tangents, then init on the middle segment. -/
noncomputable def nonuniformCoeffs (x0 x1 x2 x3 dt0 dt1 dt2 : ℝ) : ℝ × ℝ × ℝ × ℝ :=
  let t1 := ((x1 - x0) / dt0 - (x2 - x0) / (dt0 + dt1) + (x2 - x1) / dt1) * dt1
  let t2 := ((x2 - x1) / dt1 - (x3 - x1) / (dt1 + dt2) + (x3 - x2) / dt2) * dt1
  cubicCoeffs x1 x2 t1 t2

/-- Math.pow(x, 0.25) on the nonnegative squared distances of the centripetal
parametrization: the fourth root, i.e. sqrt of sqrt. -/
noncomputable def pow025 (x : ℝ) : ℝ := Real.sqrt (Real.sqrt x)

/-- Modelled from three.js CatmullRomCurve3.getPoint, segment selection: the
integer segment index and local weight from t, with the (weight 0, index
l - 1) case shifted onto the previous segment with weight 1. -/
noncomputable def catRomParams (l : ℕ) (t : ℝ) : ℤ × ℝ :=
  let p : ℝ := ((l : ℝ) - 1) * t
  let ip0 : ℤ := ⌊p⌋
  let w0 : ℝ := p - (ip0 : ℝ)
  if w0 = 0 ∧ ip0 = (l : ℤ) - 1 then ((l : ℤ) - 2, 1) else (ip0, w0)

/-- Modelled from three.js CatmullRomCurve3.getPoint for a non-closed curve
of the default centripetal type (segment selection factored into
catRomParams above): gather p0..p3 (with reflected end extrapolations),
compute the centripetal knot intervals with their 1e-4 guards and evaluate
the nonuniform Catmull-Rom cubic coordinatewise. -/
noncomputable def catRomGetPoint (points : List Vec3) (t : ℝ) : Vec3 :=
  let l : ℕ := points.length
  let iw : ℤ × ℝ := catRomParams l t
  let intPoint := iw.1
  let weight := iw.2
  let pget : ℤ → Vec3 := fun i => points.getD i.toNat Vec3.zero
  let p0 : Vec3 := if 0 < intPoint then pget (intPoint - 1)
    else ((pget 0).sub (pget 1)).add (pget 0)
  let p1 : Vec3 := pget intPoint
  let p2 : Vec3 := pget (intPoint + 1)
  let p3 : Vec3 := if intPoint + 2 < (l : ℤ) then pget (intPoint + 2)
    else ((pget ((l : ℤ) - 1)).sub (pget ((l : ℤ) - 2))).add (pget ((l : ℤ) - 1))
  let dt0a := pow025 (p0.distanceToSquared p1)
  let dt1a := pow025 (p1.distanceToSquared p2)
  let dt2a := pow025 (p2.distanceToSquared p3)
  let dt1 := if dt1a < 1e-4 then 1 else dt1a
  let dt0 := if dt0a < 1e-4 then dt1 else dt0a
  let dt2 := if dt2a < 1e-4 then dt1 else dt2a
  let px := nonuniformCoeffs p0.x p1.x p2.x p3.x dt0 dt1 dt2
  let py := nonuniformCoeffs p0.y p1.y p2.y p3.y dt0 dt1 dt2
  let pz := nonuniformCoeffs p0.z p1.z p2.z p3.z dt0 dt1 dt2
  ⟨cubicCalc px weight, cubicCalc py weight, cubicCalc pz weight⟩

/-- Modelled from three.js Curve.getLengths with the default
arcLengthDivisions = 200: the 201 cumulative chord lengths of the samples
getPoint(p / 200). -/
noncomputable def getLengths (points : List Vec3) : List ℝ :=
  ((List.range' 1 200).foldl
    (fun (acc : List ℝ × ℝ × Vec3) (p : ℕ) =>
      let current := catRomGetPoint points ((p : ℝ) / 200)
      let sum := acc.2.1 + current.distanceTo acc.2.2
      (acc.1 ++ [sum], sum, current))
    ([0], 0, catRomGetPoint points 0)).1

/-- The binary search loop of three.js Curve.getUtoTmapping: probe the middle
index; move low above it when the stored length is below the target, move
high below it when above, and stop on equality (the JS loop sets high := i
and breaks, then reads i = high). After a normal exit it returns high. -/
noncomputable def bsearchGo (arc : ℤ → ℝ) (target : ℝ) (low high : ℤ) : ℤ :=
  if low ≤ high then
    let i := low + (high - low) / 2
    if arc i < target then bsearchGo arc target (i + 1) high
    else if target < arc i then bsearchGo arc target low (i - 1)
    else i
  else high
termination_by (high + 1 - low).toNat
decreasing_by
  · have h2 : 0 ≤ (high - low) / 2 := Int.ediv_nonneg (by omega) (by norm_num)
    have h3 : (high - low) / 2 ≤ high - low := Int.ediv_le_self _ (by omega)
    omega
  · have h3 : (high - low) / 2 ≤ high - low := Int.ediv_le_self _ (by omega)
    omega

/-- Modelled from three.js Curve.getUtoTmapping (no explicit distance
argument): the target arc length is u times the total; after the search,
return i/(il-1) on an exact table hit, else interpolate inside the segment. -/
noncomputable def getUtoTmapping (points : List Vec3) (u : ℝ) : ℝ :=
  let arcLengths := getLengths points
  let il : ℕ := arcLengths.length
  let arc : ℤ → ℝ := fun j => arcLengths.getD j.toNat 0
  let targetArcLength := u * arc ((il : ℤ) - 1)
  let i := bsearchGo arc targetArcLength 0 ((il : ℤ) - 1)
  if arc i = targetArcLength then (i : ℝ) / ((il : ℝ) - 1)
  else
    let lengthBefore := arc i
    let lengthAfter := arc (i + 1)
    let segmentLength := lengthAfter - lengthBefore
    let segmentFraction := (targetArcLength - lengthBefore) / segmentLength
    ((i : ℝ) + segmentFraction) / ((il : ℝ) - 1)

/-- Modelled from three.js Curve.getPointAt. -/
noncomputable def getPointAt (points : List Vec3) (u : ℝ) : Vec3 :=
  catRomGetPoint points (getUtoTmapping points u)

/-- Modelled from three.js Curve.getSpacedPoints(divisions): the divisions+1
samples getPointAt(d / divisions) for d = 0 .. divisions. -/
noncomputable def getSpacedPoints (points : List Vec3) (divisions : ℕ) : List Vec3 :=
  (List.range (divisions + 1)).map
    (fun (d : ℕ) => getPointAt points ((d : ℝ) / (divisions : ℝ)))

end ThreeCurve

/-- A concrete control curve with two control points, used to instantiate the
sampler lemmas: the straight segment from the origin to (1,0,0). -/
noncomputable def demoPts : List Vec3 := [⟨0, 0, 0⟩, ⟨1, 0, 0⟩]

/-- The cumulative chord lengths of the 201 curve samples getPoint(j / 200):
entry k + 1 adds the distance between samples k + 1 and k. Proved below to be
exactly the contents of the three.js getLengths table. -/
noncomputable def arcSum (pts : List Vec3) : ℕ → ℝ
  | 0 => 0
  | k + 1 => arcSum pts k +
      (ThreeCurve.catRomGetPoint pts (((k + 1 : ℕ) : ℝ) / 200)).distanceTo
        (ThreeCurve.catRomGetPoint pts (((k : ℕ) : ℝ) / 200))

namespace Vec3

@[simp] theorem mk_eta (a : Vec3) : Vec3.mk a.x a.y a.z = a := rfl

theorem ext_iff' {a b : Vec3} : a = b ↔ a.x = b.x ∧ a.y = b.y ∧ a.z = b.z := by
  constructor
  · intro h; subst h; exact ⟨rfl, rfl, rfl⟩
  · intro ⟨h1, h2, h3⟩; cases a; cases b; simp_all

@[simp] theorem lengthSq_zero : (zero).lengthSq = 0 := by simp [lengthSq, zero]

theorem lengthSq_nonneg (a : Vec3) : 0 ≤ a.lengthSq := by
  have hx := mul_self_nonneg a.x
  have hy := mul_self_nonneg a.y
  have hz := mul_self_nonneg a.z
  unfold lengthSq; linarith

theorem lengthSq_eq_zero_iff {a : Vec3} : a.lengthSq = 0 ↔ a = zero := by
  constructor
  · intro h
    have hx := mul_self_nonneg a.x
    have hy := mul_self_nonneg a.y
    have hz := mul_self_nonneg a.z
    unfold lengthSq at h
    have hx0 : a.x * a.x = 0 := by linarith
    have hy0 : a.y * a.y = 0 := by linarith
    have hz0 : a.z * a.z = 0 := by linarith
    have : a.x = 0 := by nlinarith
    have : a.y = 0 := by nlinarith
    have : a.z = 0 := by nlinarith
    cases a; simp_all [zero]
  · intro h; subst h; simp

theorem length_nonneg (a : Vec3) : 0 ≤ a.length := Real.sqrt_nonneg _

theorem length_eq_zero_iff {a : Vec3} : a.length = 0 ↔ a = zero := by
  unfold length
  rw [Real.sqrt_eq_zero (lengthSq_nonneg a)]
  exact lengthSq_eq_zero_iff

theorem length_pos_of_ne {a : Vec3} (h : a ≠ zero) : 0 < a.length := by
  rcases lt_or_eq_of_le (length_nonneg a) with h' | h'
  · exact h'
  · exact absurd (length_eq_zero_iff.mp h'.symm) h

theorem sq_length (a : Vec3) : a.length * a.length = a.lengthSq := by
  unfold length
  exact Real.mul_self_sqrt (lengthSq_nonneg a)

theorem lengthSq_multiplyScalar (a : Vec3) (s : ℝ) :
    (a.multiplyScalar s).lengthSq = s * s * a.lengthSq := by
  unfold multiplyScalar lengthSq; ring

theorem length_multiplyScalar (a : Vec3) (s : ℝ) :
    (a.multiplyScalar s).length = |s| * a.length := by
  unfold length
  rw [lengthSq_multiplyScalar, show s * s = |s| * |s| by
        rw [← abs_mul, abs_mul_self],
      show |s| * |s| * a.lengthSq = (|s| * |s|) * a.lengthSq by ring,
      Real.sqrt_mul (mul_self_nonneg |s|)]
  rw [Real.sqrt_mul_self (abs_nonneg s)]

@[simp] theorem multiplyScalar_zero (a : Vec3) : a.multiplyScalar 0 = zero := by
  simp [multiplyScalar, zero]

@[simp] theorem multiplyScalar_one (a : Vec3) : a.multiplyScalar 1 = a := by
  simp [multiplyScalar]

@[simp] theorem add_zero' (a : Vec3) : a.add zero = a := by simp [add, zero]

@[simp] theorem sub_self' (a : Vec3) : a.sub a = zero := by simp [sub, zero]

@[simp] theorem normalize_zero : (zero).normalize = zero := by
  unfold normalize divideScalar
  simp [length_eq_zero_iff, multiplyScalar, zero]

theorem length_normalize {a : Vec3} (h : a ≠ zero) : a.normalize.length = 1 := by
  have hl : a.length ≠ 0 := ne_of_gt (length_pos_of_ne h)
  unfold normalize divideScalar
  rw [if_neg hl, length_multiplyScalar]
  have hpos : (0:ℝ) < 1 / a.length := by
    apply div_pos one_pos (length_pos_of_ne h)
  rw [abs_of_pos hpos]
  field_simp

theorem lerp_zero_alpha (a v : Vec3) : a.lerp v 0 = a := by simp [lerp]

end Vec3

namespace Quat

theorem normSq_setFromAxisAngle_unit {axis : Vec3} (h : axis.lengthSq = 1)
    (angle : ℝ) : (setFromAxisAngle axis angle).normSq = 1 := by
  unfold setFromAxisAngle normSq
  have hs := Real.sin_sq_add_cos_sq (angle / 2)
  unfold Vec3.lengthSq at h
  nlinarith [hs, h]

end Quat

namespace Vec3

/-- Rotation by a unit quaternion preserves the squared length: the difference
of squared lengths is 4 * (normSq q - 1) * lengthSq (cross of the quaternion
vector part with v). -/
theorem lengthSq_applyQuaternion (v : Vec3) (q : Quat) (h : q.normSq = 1) :
    (v.applyQuaternion q).lengthSq = v.lengthSq := by
  have key : (v.applyQuaternion q).lengthSq - v.lengthSq =
      4 * (q.normSq - 1) * (Vec3.cross ⟨q.qx, q.qy, q.qz⟩ v).lengthSq := by
    unfold applyQuaternion lengthSq cross Quat.normSq
    ring
  rw [h] at key
  simp at key
  linarith

theorem length_applyQuaternion (v : Vec3) (q : Quat) (h : q.normSq = 1) :
    (v.applyQuaternion q).length = v.length := by
  unfold length
  rw [lengthSq_applyQuaternion v q h]

/-- Applying a quaternion whose vector part is zero is the identity. -/
theorem applyQuaternion_vector_zero (v : Vec3) (w : ℝ) :
    v.applyQuaternion ⟨0, 0, 0, w⟩ = v := by
  unfold applyQuaternion
  simp

/-- Rotation about a normalized nonzero axis preserves the length; a zero axis
(normalize of the zero random vector) degenerates to the identity. -/
theorem length_applyAxisAngle_normalize (v r : Vec3) (angle : ℝ) :
    (v.applyAxisAngle r.normalize angle).length = v.length := by
  by_cases hr : r = zero
  · subst hr
    unfold applyAxisAngle Quat.setFromAxisAngle
    rw [normalize_zero]
    show (v.applyQuaternion ⟨0 * _, 0 * _, 0 * _, _⟩).length = v.length
    simp only [zero_mul]
    rw [applyQuaternion_vector_zero]
  · apply length_applyQuaternion
    apply Quat.normSq_setFromAxisAngle_unit
    have h1 : r.normalize.length = 1 := length_normalize hr
    have := sq_length r.normalize
    rw [h1] at this
    linarith

end Vec3

theorem clamp_mem {value lo hi : ℝ} (h : lo ≤ hi) :
    lo ≤ clamp value lo hi ∧ clamp value lo hi ≤ hi := by
  unfold clamp
  constructor
  · exact le_max_left _ _
  · exact max_le h (min_le_left _ _)

theorem bounceAxis_mem (p v : ℝ) {half : ℝ} (h : 0 ≤ half) :
    -half ≤ (bounceAxis p v half).1 ∧ (bounceAxis p v half).1 ≤ half := by
  unfold bounceAxis
  by_cases hc : p < -half ∨ half < p
  · rw [if_pos hc]
    exact clamp_mem (by linarith)
  · rw [if_neg hc]
    push_neg at hc
    exact ⟨hc.1, hc.2⟩

theorem bounceAxis_vel_mul (p v half : ℝ) :
    (bounceAxis p v half).2.1 * (bounceAxis p v half).2.1 = v * v := by
  unfold bounceAxis
  split
  · simp only []
    ring
  · rfl

/-- The three per-axis bounces only flip velocity component signs, so the
velocity length is unchanged. -/
theorem length_bounce_vel (pos1 vel2 : Vec3) :
    (Vec3.mk (bounceAxis pos1.x vel2.x halfX).2.1
      (bounceAxis pos1.y vel2.y halfY).2.1
      (bounceAxis pos1.z vel2.z halfZ).2.1).length = vel2.length := by
  unfold Vec3.length Vec3.lengthSq
  rw [bounceAxis_vel_mul, bounceAxis_vel_mul, bounceAxis_vel_mul]

theorem length_mk_axis (a : ℝ) : (Vec3.mk a 0 0).length = |a| := by
  unfold Vec3.length Vec3.lengthSq
  simp only [mul_zero, add_zero]
  exact Real.sqrt_mul_self_eq_abs a

theorem normalize_mk_x {a : ℝ} (h : 0 < a) :
    (Vec3.mk a 0 0).normalize = ⟨1, 0, 0⟩ := by
  have hl : (Vec3.mk a 0 0).length = a := by rw [length_mk_axis, abs_of_pos h]
  unfold Vec3.normalize Vec3.divideScalar
  rw [hl, if_neg (ne_of_gt h)]
  unfold Vec3.multiplyScalar
  simp only [zero_mul]
  congr 1
  field_simp

theorem normalize_mk_neg_x {a : ℝ} (h : 0 < a) :
    (Vec3.mk (-a) 0 0).normalize = ⟨-1, 0, 0⟩ := by
  have hl : (Vec3.mk (-a) 0 0).length = a := by
    rw [length_mk_axis, abs_neg, abs_of_pos h]
  unfold Vec3.normalize Vec3.divideScalar
  rw [hl, if_neg (ne_of_gt h)]
  unfold Vec3.multiplyScalar
  simp only [zero_mul]
  congr 1
  field_simp

/-- Claim C2: for every agent and every tick, at the end of the tick the
position lies within [-half, +half] on each axis (halfX = 8, halfY = 3,
halfZ = 6), for ANY pre-tick state — in particular for all initial
velocities and hence after any number of ticks. The wall-bounce block of
the animation loop clamps each out-of-range coordinate and leaves in-range
coordinates untouched. -/
theorem c2_position_within_bounds (prm : Params) (delta : ℝ)
    (target rndAxis : Vec3) (rndAngle : ℝ) (st : FishState) :
    (-halfX ≤ (fishTick prm delta target rndAxis rndAngle st).pos.x ∧
      (fishTick prm delta target rndAxis rndAngle st).pos.x ≤ halfX) ∧
    (-halfY ≤ (fishTick prm delta target rndAxis rndAngle st).pos.y ∧
      (fishTick prm delta target rndAxis rndAngle st).pos.y ≤ halfY) ∧
    (-halfZ ≤ (fishTick prm delta target rndAxis rndAngle st).pos.z ∧
      (fishTick prm delta target rndAxis rndAngle st).pos.z ≤ halfZ) := by
  have hx : (0:ℝ) ≤ halfX := by unfold halfX aqWidth margin; norm_num
  have hy : (0:ℝ) ≤ halfY := by unfold halfY aqHeight margin; norm_num
  have hz : (0:ℝ) ≤ halfZ := by unfold halfZ aqDepth margin; norm_num
  refine ⟨?_, ?_, ?_⟩
  · exact bounceAxis_mem _ _ hx
  · exact bounceAxis_mem _ _ hy
  · exact bounceAxis_mem _ _ hz

/-- Amended claim C5: after a tick, the agent velocity has length exactly
fishSpeed PROVIDED the steering interpolation vector (the input of the final
normalize) is nonzero; the per-axis bounce negations and the random-axis
bounce rotation indeed preserve the length. (The unamended claim fails when
the lerp of the normalized velocity toward the desired direction is the zero
vector, see the counterexample.) -/
theorem c5_speed_invariant (prm : Params) (delta : ℝ)
    (target rndAxis : Vec3) (rndAngle : ℝ) (st : FishState)
    (hsp : 0 ≤ prm.fishSpeed)
    (h : steerLerp prm delta target st ≠ Vec3.zero) :
    (fishTick prm delta target rndAxis rndAngle st).vel.length = prm.fishSpeed := by
  have hv2 : (((steerLerp prm delta target st).normalize).multiplyScalar
      prm.fishSpeed).length = prm.fishSpeed := by
    rw [Vec3.length_multiplyScalar, Vec3.length_normalize h,
        abs_of_nonneg hsp, mul_one]
  show (if _ then Vec3.applyAxisAngle _ rndAxis.normalize rndAngle else _).length = _
  split
  · rw [Vec3.length_applyAxisAngle_normalize]
    rw [length_bounce_vel]
    exact hv2
  · rw [length_bounce_vel]
    exact hv2

/-- Witness for c5_speed_invariant: a concrete nonbouncing tick with velocity
(2,0,0), target (1,0,0), delta 0, under the default parameters. -/
theorem c5_speed_invariant_witness :
    (0:ℝ) ≤ defaultParams.fishSpeed ∧
    steerLerp defaultParams 0 ⟨1, 0, 0⟩ ⟨Vec3.zero, ⟨2, 0, 0⟩, Vec3.zero⟩ ≠ Vec3.zero ∧
    (fishTick defaultParams 0 ⟨1, 0, 0⟩ ⟨1, 0, 0⟩ 0
      ⟨Vec3.zero, ⟨2, 0, 0⟩, Vec3.zero⟩).vel.length = defaultParams.fishSpeed := by
  have hsp : (0:ℝ) ≤ defaultParams.fishSpeed := by norm_num [defaultParams]
  have hlerp : steerLerp defaultParams 0 ⟨1, 0, 0⟩
      ⟨Vec3.zero, ⟨2, 0, 0⟩, Vec3.zero⟩ = ⟨1, 0, 0⟩ := by
    unfold steerLerp
    simp only [Vec3.sub, Vec3.add, Vec3.multiplyScalar, Vec3.zero]
    norm_num
    rw [show (Vec3.mk 1 0 0) = Vec3.mk (1:ℝ) 0 0 from rfl]
    rw [normalize_mk_x (by norm_num : (0:ℝ) < 1)]
    rw [show (Vec3.mk 2 0 0) = Vec3.mk (2:ℝ) 0 0 from rfl]
    rw [normalize_mk_x (by norm_num : (0:ℝ) < 2)]
    simp [Vec3.lerp]
  have hne : steerLerp defaultParams 0 ⟨1, 0, 0⟩
      ⟨Vec3.zero, ⟨2, 0, 0⟩, Vec3.zero⟩ ≠ Vec3.zero := by
    rw [hlerp]
    intro hcon
    have := congrArg Vec3.x hcon
    simp [Vec3.zero] at this
  exact ⟨hsp, hne, c5_speed_invariant defaultParams 0 ⟨1, 0, 0⟩ ⟨1, 0, 0⟩ 0
    ⟨Vec3.zero, ⟨2, 0, 0⟩, Vec3.zero⟩ hsp hne⟩

/-- Counterexample to claim C5 as stated: with the default parameters
(fishSpeed 2, turnSpeed 1.5), delta = 1/3 and the target exactly behind the
agent, the steering lerp factor is 1.5 * 1/3 = 1/2 and the interpolation of
the unit velocity toward the exactly opposite desired direction is the zero
vector, so after the tick the velocity is the zero vector: its magnitude 0
differs from the configured cruise speed 2. -/
theorem c5_counterexample :
    (fishTick defaultParams (1/3) ⟨-1, 0, 0⟩ ⟨1, 0, 0⟩ 0
      ⟨Vec3.zero, ⟨2, 0, 0⟩, Vec3.zero⟩).vel.length ≠ defaultParams.fishSpeed := by
  have hlerp : steerLerp defaultParams (1/3) ⟨-1, 0, 0⟩
      ⟨Vec3.zero, ⟨2, 0, 0⟩, Vec3.zero⟩ = Vec3.zero := by
    unfold steerLerp
    simp only [Vec3.sub, Vec3.add, Vec3.multiplyScalar, Vec3.zero]
    norm_num
    rw [show (Vec3.mk (-1) 0 0) = Vec3.mk (-(1:ℝ)) 0 0 by norm_num]
    rw [normalize_mk_neg_x (by norm_num : (0:ℝ) < 1)]
    rw [show (Vec3.mk 2 0 0) = Vec3.mk (2:ℝ) 0 0 from rfl]
    rw [normalize_mk_x (by norm_num : (0:ℝ) < 2)]
    unfold Vec3.lerp
    norm_num [defaultParams]
  show (if _ then Vec3.applyAxisAngle _ _ _ else _).length ≠ _
  have hvel2 : ((steerLerp defaultParams (1/3) ⟨-1, 0, 0⟩
      ⟨Vec3.zero, ⟨2, 0, 0⟩, Vec3.zero⟩).normalize).multiplyScalar
        (2:ℝ) = Vec3.zero := by
    rw [hlerp, Vec3.normalize_zero]
    simp [Vec3.multiplyScalar, Vec3.zero]
  rw [show defaultParams.fishSpeed = 2 from rfl]
  split
  · rw [Vec3.length_applyAxisAngle_normalize, length_bounce_vel, hvel2]
    rw [Vec3.length_eq_zero_iff.mpr rfl]
    norm_num
  · rw [length_bounce_vel, hvel2]
    rw [Vec3.length_eq_zero_iff.mpr rfl]
    norm_num

theorem length_sub_comm (a b : Vec3) : (b.sub a).length = (a.sub b).length := by
  unfold Vec3.length Vec3.lengthSq Vec3.sub
  congr 1
  ring

theorem sub_comm_neg (a b : Vec3) : b.sub a = (a.sub b).multiplyScalar (-1) := by
  unfold Vec3.sub Vec3.multiplyScalar
  congr 1 <;> ring

theorem normalize_multiplyScalar_neg_one (o : Vec3) :
    (o.multiplyScalar (-1)).normalize = (o.normalize).multiplyScalar (-1) := by
  have hlen : (o.multiplyScalar (-1)).length = o.length := by
    rw [Vec3.length_multiplyScalar]
    norm_num
  unfold Vec3.normalize Vec3.divideScalar
  rw [hlen]
  unfold Vec3.multiplyScalar
  congr 1 <;> ring

/-- Amended claim C4: two agents 0.2 apart under the default parameters
(separationDist 1.0, separationStrength 2.0) both receive nonzero
accelerations pointing in exactly opposite directions, with magnitudes
(8/5)/mass — each scaled by the own mass of that agent, so the magnitudes are
equal precisely when the two masses are equal (the unamended claim asserted
equal magnitudes unconditionally, which fails for unequal masses drawn from
1.0 + random * 0.2; see the counterexample). -/
theorem c4_separation_two_agents (p0 p1 : Vec3) (m0 m1 : ℝ)
    (hd : p0.distanceTo p1 = 1/5) (hm0 : 0 < m0) (hm1 : 0 < m1) :
    (separationAccels defaultParams [(p0, m0), (p1, m1)]).getD 0 Vec3.zero ≠ Vec3.zero ∧
    (separationAccels defaultParams [(p0, m0), (p1, m1)]).getD 1 Vec3.zero ≠ Vec3.zero ∧
    ((separationAccels defaultParams [(p0, m0), (p1, m1)]).getD 0 Vec3.zero).length
      = 8 / (5 * m0) ∧
    ((separationAccels defaultParams [(p0, m0), (p1, m1)]).getD 1 Vec3.zero).length
      = 8 / (5 * m1) ∧
    (∃ c : ℝ, 0 < c ∧
      (separationAccels defaultParams [(p0, m0), (p1, m1)]).getD 1 Vec3.zero =
      ((separationAccels defaultParams [(p0, m0), (p1, m1)]).getD 0 Vec3.zero).multiplyScalar
        (-c)) ∧
    (((separationAccels defaultParams [(p0, m0), (p1, m1)]).getD 0 Vec3.zero).length =
      ((separationAccels defaultParams [(p0, m0), (p1, m1)]).getD 1 Vec3.zero).length
      ↔ m0 = m1) := by
  have hdist : (p0.sub p1).length = 1/5 := by
    have : p0.distanceTo p1 = (p0.sub p1).length := rfl
    rw [← this, hd]
  have hdist' : (p1.sub p0).length = 1/5 := by rw [length_sub_comm]; exact hdist
  have hone : (p0.sub p1) ≠ Vec3.zero := by
    intro hcon
    rw [hcon, Vec3.length_eq_zero_iff.mpr rfl] at hdist
    norm_num at hdist
  have hcond : 0 < (p0.sub p1).length ∧
      (p0.sub p1).length < defaultParams.separationDist := by
    rw [hdist]; norm_num [defaultParams]
  have hcond' : 0 < (p1.sub p0).length ∧
      (p1.sub p0).length < defaultParams.separationDist := by
    rw [hdist']; norm_num [defaultParams]
  have ha0 : (separationAccels defaultParams [(p0, m0), (p1, m1)]).getD 0 Vec3.zero =
      (((p0.sub p1).normalize).multiplyScalar (8/5)).divideScalar m0 := by
    simp only [separationAccels, sepOuter, sepInner, List.getD_cons_zero,
      List.getD_cons_succ]
    norm_num
    rw [if_pos hcond, hdist]
    norm_num [defaultParams, Vec3.add, Vec3.zero]
  have ha1 : (separationAccels defaultParams [(p0, m0), (p1, m1)]).getD 1 Vec3.zero =
      (((p1.sub p0).normalize).multiplyScalar (8/5)).divideScalar m1 := by
    simp only [separationAccels, sepOuter, sepInner, List.getD_cons_zero,
      List.getD_cons_succ]
    norm_num
    rw [if_pos hcond', hdist']
    norm_num [defaultParams, Vec3.add, Vec3.zero]
  have hnl : ((p0.sub p1).normalize).length = 1 := Vec3.length_normalize hone
  have hlen0 : ((((p0.sub p1).normalize).multiplyScalar (8/5)).divideScalar m0).length
      = 8 / (5 * m0) := by
    unfold Vec3.divideScalar
    rw [Vec3.length_multiplyScalar, Vec3.length_multiplyScalar, hnl]
    rw [abs_of_pos (by positivity : (0:ℝ) < 1 / m0),
        abs_of_pos (by norm_num : (0:ℝ) < (8:ℝ)/5)]
    field_simp
    ring
  have hnorm1 : (p1.sub p0).normalize = ((p0.sub p1).normalize).multiplyScalar (-1) := by
    rw [sub_comm_neg p0 p1, normalize_multiplyScalar_neg_one]
  have hlen1 : ((((p1.sub p0).normalize).multiplyScalar (8/5)).divideScalar m1).length
      = 8 / (5 * m1) := by
    unfold Vec3.divideScalar
    rw [Vec3.length_multiplyScalar, Vec3.length_multiplyScalar, hnorm1,
        Vec3.length_multiplyScalar, hnl]
    rw [abs_of_pos (by positivity : (0:ℝ) < 1 / m1),
        abs_of_pos (by norm_num : (0:ℝ) < (8:ℝ)/5)]
    norm_num
    field_simp
    ring
  refine ⟨?_, ?_, ?_, ?_, ?_, ?_⟩
  · rw [ha0]
    intro hcon
    have := congrArg Vec3.length hcon
    rw [hlen0, Vec3.length_eq_zero_iff.mpr rfl] at this
    have : (0:ℝ) < 8 / (5 * m0) := by positivity
    linarith [this]
  · rw [ha1]
    intro hcon
    have h1 := congrArg Vec3.length hcon
    rw [hlen1, Vec3.length_eq_zero_iff.mpr rfl] at h1
    have h2 : (0:ℝ) < 8 / (5 * m1) := by positivity
    linarith
  · rw [ha0]; exact hlen0
  · rw [ha1]; exact hlen1
  · refine ⟨m0 / m1, div_pos hm0 hm1, ?_⟩
    rw [ha0, ha1, hnorm1]
    unfold Vec3.divideScalar Vec3.multiplyScalar
    have hm0' : m0 ≠ 0 := ne_of_gt hm0
    have hm1' : m1 ≠ 0 := ne_of_gt hm1
    congr 1 <;> field_simp <;> ring
  · rw [ha0, ha1, hlen0, hlen1]
    constructor
    · intro h
      have hm0' : m0 ≠ 0 := ne_of_gt hm0
      have hm1' : m1 ≠ 0 := ne_of_gt hm1
      field_simp at h
      linarith
    · intro h; rw [h]

/-- Witness for c4_separation_two_agents: agents at (0,0,0) and (0.2,0,0)
with masses 1 and 1.1 (both in the creation range 1.0 + random * 0.2). -/
theorem c4_separation_two_agents_witness :
    Vec3.distanceTo Vec3.zero ⟨1/5, 0, 0⟩ = 1/5 ∧ (0:ℝ) < 1 ∧ (0:ℝ) < 11/10 ∧
    (((separationAccels defaultParams [(Vec3.zero, 1), (⟨1/5, 0, 0⟩, 11/10)]).getD 0
        Vec3.zero).length = 8 / (5 * 1) ∧
      ((separationAccels defaultParams [(Vec3.zero, 1), (⟨1/5, 0, 0⟩, 11/10)]).getD 1
        Vec3.zero).length = 8 / (5 * (11/10))) := by
  have hd : Vec3.distanceTo Vec3.zero ⟨1/5, 0, 0⟩ = 1/5 := by
    show ((Vec3.zero).sub ⟨1/5, 0, 0⟩).length = 1/5
    rw [show (Vec3.zero).sub ⟨1/5, 0, 0⟩ = Vec3.mk (-(1/5)) 0 0 by
      norm_num [Vec3.sub, Vec3.zero]]
    rw [length_mk_axis]
    norm_num
  have hmain := c4_separation_two_agents Vec3.zero ⟨1/5, 0, 0⟩ 1 (11/10) hd
    (by norm_num) (by norm_num)
  exact ⟨hd, by norm_num, by norm_num, hmain.2.2.1, hmain.2.2.2.1⟩

/-- Counterexample to claim C4 as stated: the same two agents 0.2 apart with
masses 1 and 1.1 get accelerations of magnitude 8/5 and 16/11 respectively —
nonzero and opposite, but NOT equal in magnitude, because each force is
divided by the own mass of that agent. -/
theorem c4_counterexample :
    ((separationAccels defaultParams [(Vec3.zero, 1), (⟨1/5, 0, 0⟩, 11/10)]).getD 0
      Vec3.zero).length ≠
    ((separationAccels defaultParams [(Vec3.zero, 1), (⟨1/5, 0, 0⟩, 11/10)]).getD 1
      Vec3.zero).length := by
  have hl : (Vec3.mk (-(1/5) : ℝ) 0 0).length = 1/5 := by
    rw [length_mk_axis]; norm_num
  have hl' : (Vec3.mk (1/5 : ℝ) 0 0).length = 1/5 := by
    rw [length_mk_axis]; norm_num
  have hn : (Vec3.mk (-(1/5) : ℝ) 0 0).normalize = ⟨-1, 0, 0⟩ :=
    normalize_mk_neg_x (by norm_num : (0:ℝ) < 1/5)
  have hn' : (Vec3.mk (1/5 : ℝ) 0 0).normalize = ⟨1, 0, 0⟩ :=
    normalize_mk_x (by norm_num : (0:ℝ) < 1/5)
  have e0 : (separationAccels defaultParams
      [(Vec3.zero, 1), (⟨1/5, 0, 0⟩, 11/10)]).getD 0 Vec3.zero =
      ⟨-(8/5), 0, 0⟩ := by
    simp only [separationAccels, sepOuter, sepInner, List.getD_cons_zero,
      List.getD_cons_succ, Vec3.sub, Vec3.zero]
    norm_num
    rw [hl, hn]
    norm_num [defaultParams, Vec3.add, Vec3.multiplyScalar, Vec3.divideScalar]
  have e1 : (separationAccels defaultParams
      [(Vec3.zero, 1), (⟨1/5, 0, 0⟩, 11/10)]).getD 1 Vec3.zero =
      ⟨16/11, 0, 0⟩ := by
    simp only [separationAccels, sepOuter, sepInner, List.getD_cons_zero,
      List.getD_cons_succ, Vec3.sub, Vec3.zero]
    norm_num
    rw [hl', hn']
    norm_num [defaultParams, Vec3.add, Vec3.multiplyScalar, Vec3.divideScalar]
  rw [e0, e1]
  rw [show (Vec3.mk (-(8/5) : ℝ) 0 0) = Vec3.mk (-(8/5) : ℝ) 0 0 from rfl,
      length_mk_axis, length_mk_axis]
  norm_num
  rw [abs_of_pos (by norm_num : (0:ℝ) < 8/5),
      abs_of_pos (by norm_num : (0:ℝ) < 16/11)]
  norm_num

@[simp] theorem zero_multiplyScalar (s : ℝ) :
    (Vec3.zero).multiplyScalar s = Vec3.zero := by
  simp [Vec3.multiplyScalar, Vec3.zero]

@[simp] theorem zero_add' (a : Vec3) : (Vec3.zero).add a = a := by
  simp [Vec3.add, Vec3.zero]

@[simp] theorem sub_zero' (a : Vec3) : a.sub Vec3.zero = a := by
  simp [Vec3.sub, Vec3.zero]

theorem add_sub_cancel_left' (a b : Vec3) : (a.add b).sub a = b := by
  unfold Vec3.add Vec3.sub
  cases b
  simp

theorem jointLength_pos : 0 < jointLength := by
  unfold jointLength PLANT_LEN SEGMENTS
  norm_num

/-- Every link produced by the constraint pass either collapses onto its
predecessor (degenerate zero-direction case) or has exactly length
jointLength. -/
theorem kelpConstrain_chain (prev : Vec3) (l : List Vec3) :
    List.Chain' (fun a b => b = a ∨ b.distanceTo a = jointLength)
      (prev :: kelpConstrain prev l) := by
  induction l generalizing prev with
  | nil => simp [kelpConstrain]
  | cons curr rest ih =>
    show List.Chain' _ (prev :: _ :: _)
    rw [List.chain'_cons]
    constructor
    · by_cases hz : curr.sub prev = Vec3.zero
      · left
        rw [hz]
        simp
      · right
        show ((prev.add _).sub prev).length = jointLength
        rw [add_sub_cancel_left', Vec3.length_multiplyScalar, Vec3.length_normalize hz]
        rw [mul_one, abs_of_pos jointLength_pos]
    · exact ih _

/-- Amended claim C1: after any kelp tick, every pair of consecutive chain
points is either at distance exactly jointLength = PLANT_LEN/(SEGMENTS-1), or
coincides (the degenerate case in which the pre-constraint point lands
exactly on its corrected predecessor, where normalizing the zero direction
leaves the point on the predecessor; the unamended claim fails there, see
the counterexample). -/
theorem c1_kelp_links (now : ℝ) (dts : ℕ → ℝ × ℝ) (fishPositions : List Vec3)
    (p : Plant) :
    List.Chain' (fun a b => b = a ∨ b.distanceTo a = jointLength)
      (kelpTick now dts fishPositions p).points := by
  unfold kelpTick
  cases hp : p.points.set 0 p.base with
  | nil => simp
  | cons h t =>
    simp only []
    exact kelpConstrain_chain h _

/-- Counterexample to claim C1 as stated: a plant whose chain points all sit
on the anchor with zero velocities, ticked with zero clock deltas and no
nearby fish, keeps all points on the anchor: points 0 and 1 are at distance
0, not jointLength, after the tick (the spring displacement here is zero and
the constraint pass normalizes a zero direction vector, which three.js maps
to the zero vector). -/
theorem c1_counterexample :
    ((kelpTick 0 (fun _ => (0, 0)) []
        { base := Vec3.zero,
          points := [Vec3.zero, Vec3.zero, Vec3.zero, Vec3.zero, Vec3.zero,
            Vec3.zero, Vec3.zero, Vec3.zero, Vec3.zero, Vec3.zero, Vec3.zero,
            Vec3.zero],
          velocities := [Vec3.zero, Vec3.zero, Vec3.zero, Vec3.zero, Vec3.zero,
            Vec3.zero, Vec3.zero, Vec3.zero, Vec3.zero, Vec3.zero, Vec3.zero,
            Vec3.zero] }).points.getD 1 Vec3.zero).distanceTo
      ((kelpTick 0 (fun _ => (0, 0)) []
        { base := Vec3.zero,
          points := [Vec3.zero, Vec3.zero, Vec3.zero, Vec3.zero, Vec3.zero,
            Vec3.zero, Vec3.zero, Vec3.zero, Vec3.zero, Vec3.zero, Vec3.zero,
            Vec3.zero],
          velocities := [Vec3.zero, Vec3.zero, Vec3.zero, Vec3.zero, Vec3.zero,
            Vec3.zero, Vec3.zero, Vec3.zero, Vec3.zero, Vec3.zero, Vec3.zero,
            Vec3.zero] }).points.getD 0 Vec3.zero)
      ≠ jointLength := by
  have hjl : jointLength ≠ 0 := ne_of_gt jointLength_pos
  simp only [kelpTick, List.set, List.foldl_nil, List.tail, List.zip_cons_cons,
    List.zip_nil_right, kelpSpringLoop, kelpConstrain, sub_zero', Vec3.add_zero',
    zero_add', mul_zero, Vec3.multiplyScalar_zero, zero_multiplyScalar,
    Vec3.sub_self', Vec3.normalize_zero, List.map_cons, List.map_nil,
    List.getD_cons_zero, List.getD_cons_succ]
  rw [show Vec3.distanceTo Vec3.zero Vec3.zero = 0 by
    unfold Vec3.distanceTo Vec3.distanceToSquared
    simp [Real.sqrt_eq_zero']
  ]
  exact fun h => hjl h.symm

theorem getD_set_ne {α : Type} (l : List α) (i j : ℕ) (v d : α) (h : i ≠ j) :
    (l.set i v).getD j d = l.getD j d := by
  induction l generalizing i j with
  | nil => simp
  | cons a t ih =>
    cases i with
    | zero =>
      cases j with
      | zero => exact absurd rfl h
      | succ j' => simp [List.set]
    | succ i' =>
      cases j with
      | zero => simp [List.set]
      | succ j' =>
        simp only [List.set, List.getD_cons_succ]
        exact ih i' j' (fun hc => h (by rw [hc]))

theorem getD_set_self {α : Type} (l : List α) (i : ℕ) (v d : α) (h : i < l.length) :
    (l.set i v).getD i d = v := by
  induction l generalizing i with
  | nil => simp at h
  | cons a t ih =>
    cases i with
    | zero => simp [List.set]
    | succ i' =>
      simp only [List.set, List.getD_cons_succ]
      exact ih i' (by simpa using h)

theorem set_getD_eq {α : Type} : ∀ (l : List α) (i : ℕ) (d : α),
    l.set i (l.getD i d) = l
  | [], _, _ => by simp
  | a :: t, 0, d => by simp [List.set]
  | a :: t, i + 1, d => by
    simp only [List.set, List.getD_cons_succ]
    rw [set_getD_eq t i d]

theorem gset_same (g : List (List ℚ)) (x z : ℕ) :
    gset g x z (gget g x z) = g := by
  unfold gset gget
  rw [set_getD_eq, set_getD_eq]

theorem gget_gset_ne (g : List (List ℚ)) {x z x' z' : ℕ} (v : ℚ)
    (h : ¬(x = x' ∧ z = z')) :
    gget (gset g x z v) x' z' = gget g x' z' := by
  unfold gget gset
  by_cases hx : x = x'
  · subst hx
    have hz : z ≠ z' := fun hc => h ⟨rfl, hc⟩
    by_cases hlen : x < g.length
    · rw [getD_set_self _ _ _ _ hlen, getD_set_ne _ _ _ _ _ hz]
    · rw [List.set_eq_of_length_le (by omega)]
  · rw [getD_set_ne _ _ _ _ _ hx]

theorem gget_gset_self (g : List (List ℚ)) {x z : ℕ} (v : ℚ)
    (hx : x < g.length) (hz : z < (g.getD x []).length) :
    gget (gset g x z v) x z = v := by
  unfold gget gset
  rw [getD_set_self _ _ _ _ hx, getD_set_self _ _ _ _ hz]

theorem gset_gset_same (g : List (List ℚ)) (x z : ℕ) (a b : ℚ) :
    gset (gset g x z a) x z b = gset g x z b := by
  unfold gset
  by_cases hlen : x < g.length
  · rw [getD_set_self _ _ _ _ hlen, List.set_set, List.set_set]
  · have hlen2 : (g.set x ((g.getD x []).set z a)).length = g.length :=
      List.length_set g x _
    rw [List.set_eq_of_length_le (by omega), List.set_eq_of_length_le (by omega),
      List.set_eq_of_length_le (by omega)]

theorem getD_replicate' {α : Type} (n i : ℕ) (a d : α) :
    (List.replicate n a).getD i d = if i < n then a else d := by
  induction n generalizing i with
  | zero => simp
  | succ m ih =>
    cases i with
    | zero => simp [List.replicate_succ]
    | succ i' =>
      rw [List.replicate_succ, List.getD_cons_succ, ih]
      simp [Nat.succ_lt_succ_iff]

theorem gget_zeros (x z : ℕ) :
    gget (List.replicate 64 (List.replicate 64 (0:ℚ))) x z = 0 := by
  unfold gget
  rw [getD_replicate']
  by_cases hx : x < 64
  · rw [if_pos hx, getD_replicate']
    by_cases hz : z < 64
    · rw [if_pos hz]
    · rw [if_neg hz]
  · rw [if_neg hx]
    simp

theorem gget_waterRest (x z : ℕ) : gget waterRest.heights x z = 0 :=
  gget_zeros x z

theorem gget_waterRest_vel (x z : ℕ) : gget waterRest.velocities x z = 0 :=
  gget_zeros x z

/-- A cell whose stored velocity and whose five involved heights are all zero
is left untouched by the loop body. -/
theorem waterCellUpd_noop (delta : ℚ) (s : WaterState) (x z : ℕ)
    (hv : gget s.velocities x z = 0)
    (h0 : gget s.heights (x-1) z = 0) (h1 : gget s.heights (x+1) z = 0)
    (h2 : gget s.heights x (z-1) = 0) (h3 : gget s.heights x (z+1) = 0)
    (h4 : gget s.heights x z = 0) :
    waterCellUpd delta s (x, z) = s := by
  unfold waterCellUpd
  simp only []
  rw [hv, h0, h1, h2, h3, h4]
  norm_num
  have e1 : gset s.heights x z 0 = s.heights := by
    rw [show (0:ℚ) = gget s.heights x z from h4.symm]; exact gset_same _ _ _
  have e2 : gset s.velocities x z 0 = s.velocities := by
    rw [show (0:ℚ) = gget s.velocities x z from hv.symm]; exact gset_same _ _ _
  rw [e1, e2]

theorem foldl_fix {α β : Type} (f : α → β → α) (s : α) (l : List β)
    (h : ∀ b ∈ l, f s b = s) : l.foldl f s = s := by
  induction l with
  | nil => rfl
  | cons a t ih =>
    rw [List.foldl_cons, h a (by simp)]
    exact ih (fun b hb => h b (by simp [hb]))

/-- The concrete disturbance scenario of claim C6: world point (9.5, 7.6) maps
to the interior grid cell (62, 62) — the LAST interior cell in scan order —
and the impulse 1.0 lands in its velocity. -/
theorem disturb_c6_eval :
    disturbWater (19/2) (38/5) 1 waterRest =
      { heights := waterRest.heights,
        velocities := gset waterRest.velocities 62 62 1 } := by
  unfold disturbWater
  have hix : Int.floor (((19:ℚ)/2 / 20 + 0.5) * (WATER_RES_X : ℚ)) = 62 := by
    unfold WATER_RES_X
    norm_num
  have hiz : Int.floor (((38:ℚ)/5 / 16 + 0.5) * (WATER_RES_Z : ℚ)) = 62 := by
    unfold WATER_RES_Z
    norm_num
  rw [hix, hiz]
  rw [if_pos (by unfold WATER_RES_X WATER_RES_Z; norm_num)]
  rw [show ((62:ℤ)).toNat = 62 from rfl]
  rw [show gget waterRest.velocities 62 62 = 0 from gget_zeros 62 62]
  norm_num

/-- With the single impulse sitting in the last interior scan cell (62, 62),
every cell scanned before it is a no-op and the tick reduces to the single
update of cell (62, 62): its velocity becomes 1 * DAMPING = 199/200 and its
height 199/200 * delta = 199/200; nothing else changes. -/
theorem water_c6_state :
    updateWaterPhysics 1 (disturbWater (19/2) (38/5) 1 waterRest) =
      { heights := gset waterRest.heights 62 62 (199/200),
        velocities := gset waterRest.velocities 62 62 (199/200) } := by
  rw [disturb_c6_eval]
  unfold updateWaterPhysics
  rw [show waterCells =
      (List.range' 1 62).flatMap (fun x => (List.range' 1 62).map (fun z => (x, z)))
      from rfl]
  rw [show List.range' 1 62 = List.range' 1 61 ++ [62] by decide]
  rw [List.flatMap_append, List.foldl_append]
  set s0 : WaterState :=
    { heights := waterRest.heights,
      velocities := gset waterRest.velocities 62 62 1 } with hs0
  have hvels0 : ∀ x z : ℕ, ¬(x = 62 ∧ z = 62) → gget s0.velocities x z = 0 := by
    intro x z hxz
    rw [hs0]
    show gget (gset waterRest.velocities 62 62 1) x z = 0
    rw [gget_gset_ne _ _ (fun hc => hxz ⟨hc.1.symm, hc.2.symm⟩)]
    exact gget_zeros x z
  have hheights0 : ∀ x z : ℕ, gget s0.heights x z = 0 := fun x z => gget_zeros x z
  have hnoopA : ((List.range' 1 61).flatMap
      (fun x => ((List.range' 1 61 ++ [62]).map (fun z => (x, z))))).foldl
        (waterCellUpd 1) s0 = s0 := by
    apply foldl_fix
    intro c hc
    rw [List.mem_flatMap] at hc
    obtain ⟨x, hx, hc⟩ := hc
    rw [List.mem_map] at hc
    obtain ⟨z, _, rfl⟩ := hc
    rw [List.mem_range'_1] at hx
    exact waterCellUpd_noop 1 s0 x z
      (hvels0 x z (fun hc => by omega))
      (hheights0 _ _) (hheights0 _ _) (hheights0 _ _) (hheights0 _ _) (hheights0 _ _)
  rw [hnoopA]
  simp only [List.flatMap_cons, List.flatMap_nil, List.append_nil,
    List.map_append, List.map_cons, List.map_nil]
  rw [List.foldl_append]
  have hnoopB : ((List.range' 1 61).map (fun z => ((62:ℕ), z))).foldl
      (waterCellUpd 1) s0 = s0 := by
    apply foldl_fix
    intro c hc
    rw [List.mem_map] at hc
    obtain ⟨z, hz, rfl⟩ := hc
    rw [List.mem_range'_1] at hz
    exact waterCellUpd_noop 1 s0 62 z
      (hvels0 62 z (fun hc => by omega))
      (hheights0 _ _) (hheights0 _ _) (hheights0 _ _) (hheights0 _ _) (hheights0 _ _)
  rw [hnoopB]
  rw [List.foldl_cons, List.foldl_nil]
  unfold waterCellUpd
  simp only []
  rw [hheights0, hheights0, hheights0, hheights0, hheights0]
  have hvself : gget s0.velocities 62 62 = 1 := by
    show gget (gset waterRest.velocities 62 62 1) 62 62 = 1
    apply gget_gset_self
    · show (List.replicate 64 (List.replicate 64 (0:ℚ))).length > 62
      simp
    · show 62 < ((List.replicate 64 (List.replicate 64 (0:ℚ))).getD 62 []).length
      rw [show (List.replicate 64 (List.replicate 64 (0:ℚ))).getD 62 [] =
          List.replicate 64 (0:ℚ) by rw [getD_replicate']; norm_num]
      simp
  rw [hvself]
  rw [gset_gset_same]
  norm_num [WAVE_SPEED, DAMPING]

/-- Amended claim C6: the in-place scan updates the disturbed cell itself
(height becomes 199/200, nonzero) but, because every other cell was scanned
before the impulse cell (62,62) here, NO other cell changes at all — in
particular all four axis neighbors keep exactly zero height. In general, only
cells at or after the disturbed cell in scan order can change during the
tick; the claimed picture (all four neighbors nonzero, far cells zero) does
not hold of the in-place step. -/
theorem c6_water_impulse_step :
    updateWaterPhysics 1 (disturbWater (19/2) (38/5) 1 waterRest) =
      { heights := gset waterRest.heights 62 62 (199/200),
        velocities := gset waterRest.velocities 62 62 (199/200) } ∧
    gget (gset waterRest.heights 62 62 (199/200)) 62 62 = 199/200 ∧
    (199:ℚ)/200 ≠ 0 ∧
    gget (gset waterRest.heights 62 62 (199/200)) 61 62 = 0 ∧
    gget (gset waterRest.heights 62 62 (199/200)) 62 61 = 0 ∧
    gget (gset waterRest.heights 62 62 (199/200)) 63 62 = 0 ∧
    gget (gset waterRest.heights 62 62 (199/200)) 62 63 = 0 := by
  refine ⟨water_c6_state, ?_, by norm_num, ?_, ?_, ?_, ?_⟩
  · apply gget_gset_self
    · show 62 < (List.replicate 64 (List.replicate 64 (0:ℚ))).length
      simp
    · show 62 < ((List.replicate 64 (List.replicate 64 (0:ℚ))).getD 62 []).length
      rw [show (List.replicate 64 (List.replicate 64 (0:ℚ))).getD 62 [] =
          List.replicate 64 (0:ℚ) by rw [getD_replicate']; norm_num]
      simp
  · rw [gget_gset_ne _ _ (by omega)]; exact gget_zeros 61 62
  · rw [gget_gset_ne _ _ (by omega)]; exact gget_zeros 62 61
  · rw [gget_gset_ne _ _ (by omega)]; exact gget_zeros 63 62
  · rw [gget_gset_ne _ _ (by omega)]; exact gget_zeros 62 63

/-- Counterexample to claim C6 as stated: disturb the interior cell (62, 62)
(world point (9.5, 7.6), impulse 1.0) of the grid at rest; after one
wave-step tick all four axis-adjacent neighbor heights are still exactly 0 —
none of them shows the claimed nonzero height change. -/
theorem c6_counterexample :
    gget (updateWaterPhysics 1 (disturbWater (19/2) (38/5) 1 waterRest)).heights 61 62
      = 0 ∧
    gget (updateWaterPhysics 1 (disturbWater (19/2) (38/5) 1 waterRest)).heights 62 61
      = 0 ∧
    gget (updateWaterPhysics 1 (disturbWater (19/2) (38/5) 1 waterRest)).heights 63 62
      = 0 ∧
    gget (updateWaterPhysics 1 (disturbWater (19/2) (38/5) 1 waterRest)).heights 62 63
      = 0 := by
  rw [water_c6_state]
  refine ⟨?_, ?_, ?_, ?_⟩
  · show gget (gset waterRest.heights 62 62 (199/200)) 61 62 = 0
    rw [gget_gset_ne _ _ (by omega)]; exact gget_zeros 61 62
  · show gget (gset waterRest.heights 62 62 (199/200)) 62 61 = 0
    rw [gget_gset_ne _ _ (by omega)]; exact gget_zeros 62 61
  · show gget (gset waterRest.heights 62 62 (199/200)) 63 62 = 0
    rw [gget_gset_ne _ _ (by omega)]; exact gget_zeros 63 62
  · show gget (gset waterRest.heights 62 62 (199/200)) 62 63 = 0
    rw [gget_gset_ne _ _ (by omega)]; exact gget_zeros 62 63

theorem sized_zeros : Sized (List.replicate 64 (List.replicate 64 (0:ℚ))) := by
  constructor
  · simp
  · intro x hx
    rw [getD_replicate', if_pos hx]
    simp

theorem sized_gset {g : List (List ℚ)} (h : Sized g) (x z : ℕ) (v : ℚ) :
    Sized (gset g x z v) := by
  obtain ⟨hlen, hrow⟩ := h
  constructor
  · unfold gset
    rw [List.length_set]
    exact hlen
  · intro x' hx'
    unfold gset
    by_cases hxx : x = x'
    · subst hxx
      rw [getD_set_self _ _ _ _ (by omega), List.length_set]
      exact hrow x hx'
    · rw [getD_set_ne _ _ _ _ _ hxx]
      exact hrow x' hx'

theorem gget_gset_self_sized {g : List (List ℚ)} (h : Sized g) {x z : ℕ} (v : ℚ)
    (hx : x < 64) (hz : z < 64) : gget (gset g x z v) x z = v := by
  apply gget_gset_self
  · rw [h.1]
    exact hx
  · rw [h.2 x hx]
    exact hz

theorem sized_corner_heights : Sized waterCorner.heights :=
  sized_gset sized_zeros 62 62 1

theorem gget_corner_heights_ne (a b : ℕ) (h : ¬(a = 62 ∧ b = 62)) :
    gget waterCorner.heights a b = 0 := by
  show gget (gset waterRest.heights 62 62 1) a b = 0
  rw [gget_gset_ne _ _ (fun hc => h ⟨hc.1.symm, hc.2.symm⟩)]
  exact gget_zeros a b

theorem gget_corner_heights_self : gget waterCorner.heights 62 62 = 1 :=
  gget_gset_self_sized sized_zeros 1 (by norm_num) (by norm_num)

theorem gget_corner_vel (a b : ℕ) : gget waterCorner.velocities a b = 0 :=
  gget_zeros a b

theorem gget_cornerB_heights_ne (a b : ℕ) (h1 : ¬(a = 62 ∧ b = 62))
    (h2 : ¬(a = 61 ∧ b = 62)) : gget waterCornerB.heights a b = 0 := by
  show gget (gset waterCorner.heights 61 62 (199/400)) a b = 0
  rw [gget_gset_ne _ _ (fun hc => h2 ⟨hc.1.symm, hc.2.symm⟩)]
  exact gget_corner_heights_ne a b h1

theorem gget_cornerB_heights_62 : gget waterCornerB.heights 62 62 = 1 := by
  show gget (gset waterCorner.heights 61 62 (199/400)) 62 62 = 1
  rw [gget_gset_ne _ _ (by omega)]
  exact gget_corner_heights_self

theorem gget_cornerB_heights_self : gget waterCornerB.heights 61 62 = 199/400 :=
  gget_gset_self_sized sized_corner_heights _ (by norm_num) (by norm_num)

theorem gget_cornerB_vel (a b : ℕ) (h : ¬(a = 61 ∧ b = 62)) :
    gget waterCornerB.velocities a b = 0 := by
  show gget (gset waterCorner.velocities 61 62 (199/400)) a b = 0
  rw [gget_gset_ne _ _ (fun hc => h ⟨hc.1.symm, hc.2.symm⟩)]
  exact gget_corner_vel a b

theorem gget_cornerC_heights_61_62 : gget waterCornerC.heights 61 62 = 199/400 := by
  show gget (gset waterCornerB.heights 62 61 (199/400)) 61 62 = 199/400
  rw [gget_gset_ne _ _ (by omega)]
  exact gget_cornerB_heights_self

theorem gget_cornerC_heights_62_61 : gget waterCornerC.heights 62 61 = 199/400 :=
  gget_gset_self_sized (sized_gset sized_corner_heights _ _ _) _
    (by norm_num) (by norm_num)

theorem gget_cornerC_heights_62_62 : gget waterCornerC.heights 62 62 = 1 := by
  show gget (gset waterCornerB.heights 62 61 (199/400)) 62 62 = 1
  rw [gget_gset_ne _ _ (by omega)]
  exact gget_cornerB_heights_62

theorem gget_cornerC_heights_far (a b : ℕ) (h1 : ¬(a = 62 ∧ b = 62))
    (h2 : ¬(a = 61 ∧ b = 62)) (h3 : ¬(a = 62 ∧ b = 61)) :
    gget waterCornerC.heights a b = 0 := by
  show gget (gset waterCornerB.heights 62 61 (199/400)) a b = 0
  rw [gget_gset_ne _ _ (fun hc => h3 ⟨hc.1.symm, hc.2.symm⟩)]
  exact gget_cornerB_heights_ne a b h1 h2

theorem gget_cornerC_vel (a b : ℕ) (h1 : ¬(a = 61 ∧ b = 62))
    (h2 : ¬(a = 62 ∧ b = 61)) : gget waterCornerC.velocities a b = 0 := by
  show gget (gset waterCornerB.velocities 62 61 (199/400)) a b = 0
  rw [gget_gset_ne _ _ (fun hc => h2 ⟨hc.1.symm, hc.2.symm⟩)]
  exact gget_cornerB_vel a b h1

/-- The in-place wave step on waterCorner: the scan updates (61, 62) and
(62, 61) from the still-unchanged height 1 at (62, 62), and then the update
of (62, 62) itself reads the ALREADY UPDATED heights 199/400 of those two
neighbors, giving velocity (0 + ((199/400 + 0 + 199/400 + 0)/4 - 1) * 2 * 1)
* 0.995 = -119599/80000. -/
theorem water_c9_inplace :
    updateWaterPhysics 1 waterCorner =
      { heights := gset waterCornerC.heights 62 62 (1 + (-119599/80000) * 1),
        velocities := gset waterCornerC.velocities 62 62 (-119599/80000) } := by
  unfold updateWaterPhysics
  rw [show waterCells =
      (List.range' 1 62).flatMap (fun x => (List.range' 1 62).map (fun z => (x, z)))
      from rfl]
  rw [show List.range' 1 62 = List.range' 1 60 ++ [61, 62] by decide]
  rw [List.flatMap_append, List.foldl_append]
  have hnoopA : ((List.range' 1 60).flatMap
      (fun x => ((List.range' 1 60 ++ [61, 62]).map (fun z => (x, z))))).foldl
        (waterCellUpd 1) waterCorner = waterCorner := by
    apply foldl_fix
    intro c hc
    rw [List.mem_flatMap] at hc
    obtain ⟨x, hx, hc⟩ := hc
    rw [List.mem_map] at hc
    obtain ⟨z, _, rfl⟩ := hc
    rw [List.mem_range'_1] at hx
    exact waterCellUpd_noop 1 waterCorner x z (gget_corner_vel x z)
      (gget_corner_heights_ne _ _ (by omega)) (gget_corner_heights_ne _ _ (by omega))
      (gget_corner_heights_ne _ _ (by omega)) (gget_corner_heights_ne _ _ (by omega))
      (gget_corner_heights_ne _ _ (by omega))
  rw [hnoopA]
  simp only [List.flatMap_cons, List.flatMap_nil, List.append_nil,
    List.map_append, List.map_cons, List.map_nil]
  rw [List.foldl_append, List.foldl_append, List.foldl_append]
  have hnoopR61 : ((List.range' 1 60).map (fun z => ((61:ℕ), z))).foldl
      (waterCellUpd 1) waterCorner = waterCorner := by
    apply foldl_fix
    intro c hc
    rw [List.mem_map] at hc
    obtain ⟨z, hz, rfl⟩ := hc
    rw [List.mem_range'_1] at hz
    exact waterCellUpd_noop 1 waterCorner 61 z (gget_corner_vel _ _)
      (gget_corner_heights_ne _ _ (by omega)) (gget_corner_heights_ne _ _ (by omega))
      (gget_corner_heights_ne _ _ (by omega)) (gget_corner_heights_ne _ _ (by omega))
      (gget_corner_heights_ne _ _ (by omega))
  rw [hnoopR61]
  have h6161 : waterCellUpd 1 waterCorner (61, 61) = waterCorner :=
    waterCellUpd_noop 1 waterCorner 61 61 (gget_corner_vel _ _)
      (gget_corner_heights_ne _ _ (by omega)) (gget_corner_heights_ne _ _ (by omega))
      (gget_corner_heights_ne _ _ (by omega)) (gget_corner_heights_ne _ _ (by omega))
      (gget_corner_heights_ne _ _ (by omega))
  have hstepB : waterCellUpd 1 waterCorner (61, 62) = waterCornerB := by
    unfold waterCellUpd
    simp only []
    rw [show (61:ℕ) - 1 = 60 from rfl, show (61:ℕ) + 1 = 62 from rfl,
        show (62:ℕ) - 1 = 61 from rfl, show (62:ℕ) + 1 = 63 from rfl]
    rw [gget_corner_heights_ne 60 62 (by omega),
        gget_corner_heights_self,
        gget_corner_heights_ne 61 61 (by omega),
        gget_corner_heights_ne 61 63 (by omega),
        gget_corner_heights_ne 61 62 (by omega),
        gget_corner_vel 61 62]
    unfold waterCornerB
    norm_num [WAVE_SPEED, DAMPING]
  have e1 : List.foldl (waterCellUpd 1) waterCorner
      [((61:ℕ), (61:ℕ)), ((61:ℕ), (62:ℕ))] = waterCornerB := by
    rw [show List.foldl (waterCellUpd 1) waterCorner
        [((61:ℕ), (61:ℕ)), ((61:ℕ), (62:ℕ))] =
        waterCellUpd 1 (waterCellUpd 1 waterCorner (61, 61)) (61, 62) from rfl]
    rw [h6161]
    exact hstepB
  rw [e1]
  have hnoopR62 : ((List.range' 1 60).map (fun z => ((62:ℕ), z))).foldl
      (waterCellUpd 1) waterCornerB = waterCornerB := by
    apply foldl_fix
    intro c hc
    rw [List.mem_map] at hc
    obtain ⟨z, hz, rfl⟩ := hc
    rw [List.mem_range'_1] at hz
    exact waterCellUpd_noop 1 waterCornerB 62 z
      (gget_cornerB_vel _ _ (by omega))
      (gget_cornerB_heights_ne _ _ (by omega) (by omega))
      (gget_cornerB_heights_ne _ _ (by omega) (by omega))
      (gget_cornerB_heights_ne _ _ (by omega) (by omega))
      (gget_cornerB_heights_ne _ _ (by omega) (by omega))
      (gget_cornerB_heights_ne _ _ (by omega) (by omega))
  rw [hnoopR62]
  have hstepC : waterCellUpd 1 waterCornerB (62, 61) = waterCornerC := by
    unfold waterCellUpd
    simp only []
    rw [show (62:ℕ) - 1 = 61 from rfl, show (62:ℕ) + 1 = 63 from rfl,
        show (61:ℕ) - 1 = 60 from rfl, show (61:ℕ) + 1 = 62 from rfl]
    rw [gget_cornerB_heights_ne 61 61 (by omega) (by omega),
        gget_cornerB_heights_ne 63 61 (by omega) (by omega),
        gget_cornerB_heights_ne 62 60 (by omega) (by omega),
        gget_cornerB_heights_62,
        gget_cornerB_heights_ne 62 61 (by omega) (by omega),
        gget_cornerB_vel 62 61 (by omega)]
    unfold waterCornerC
    norm_num [WAVE_SPEED, DAMPING]
  rw [show List.foldl (waterCellUpd 1) waterCornerB
      [((62:ℕ), (61:ℕ)), ((62:ℕ), (62:ℕ))] =
      waterCellUpd 1 (waterCellUpd 1 waterCornerB (62, 61)) (62, 62) from rfl]
  rw [hstepC]
  unfold waterCellUpd
  simp only []
  rw [show (62:ℕ) - 1 = 61 from rfl, show (62:ℕ) + 1 = 63 from rfl]
  rw [gget_cornerC_heights_61_62,
      gget_cornerC_heights_far 63 62 (by omega) (by omega) (by omega),
      gget_cornerC_heights_62_61,
      gget_cornerC_heights_far 62 63 (by omega) (by omega) (by omega),
      gget_cornerC_heights_62_62,
      gget_cornerC_vel 62 62 (by omega) (by omega)]
  norm_num [WAVE_SPEED, DAMPING]

/-- A synchronous cell update is the identity when the stored velocity is zero
and the five pre-tick heights entering the Laplacian are zero. -/
theorem waterCellUpdSyncFrom_noop (h0 : List (List ℚ)) (delta : ℚ)
    (s : WaterState) (x z : ℕ)
    (hv : gget s.velocities x z = 0)
    (k0 : gget h0 (x-1) z = 0) (k1 : gget h0 (x+1) z = 0)
    (k2 : gget h0 x (z-1) = 0) (k3 : gget h0 x (z+1) = 0)
    (k4 : gget h0 x z = 0) :
    waterCellUpdSyncFrom h0 delta s (x, z) = s := by
  unfold waterCellUpdSyncFrom
  simp only []
  rw [hv, k0, k1, k2, k3, k4]
  norm_num
  have e1 : gset s.heights x z (gget s.heights x z) = s.heights := gset_same _ _ _
  have e2 : gset s.velocities x z 0 = s.velocities := by
    rw [show (0:ℚ) = gget s.velocities x z from hv.symm]; exact gset_same _ _ _
  rw [e1, e2]

/-- The synchronous wave step on waterCorner: the cells (61, 62) and (62, 61)
receive exactly the same update as in the in-place step (their Laplacians
read only pre-tick values either way), but the update of (62, 62) reads the
pre-tick zero heights of its neighbors, giving velocity
(0 + (0/4 - 1) * 2 * 1) * 0.995 = -199/100. -/
theorem water_c9_sync :
    updateWaterPhysicsSync 1 waterCorner =
      { heights := gset waterCornerC.heights 62 62 (1 + (-199/100) * 1),
        velocities := gset waterCornerC.velocities 62 62 (-199/100) } := by
  unfold updateWaterPhysicsSync
  rw [show waterCells =
      (List.range' 1 62).flatMap (fun x => (List.range' 1 62).map (fun z => (x, z)))
      from rfl]
  rw [show List.range' 1 62 = List.range' 1 60 ++ [61, 62] by decide]
  rw [List.flatMap_append, List.foldl_append]
  have hnoopA : ((List.range' 1 60).flatMap
      (fun x => ((List.range' 1 60 ++ [61, 62]).map (fun z => (x, z))))).foldl
        (waterCellUpdSyncFrom waterCorner.heights 1) waterCorner = waterCorner := by
    apply foldl_fix
    intro c hc
    rw [List.mem_flatMap] at hc
    obtain ⟨x, hx, hc⟩ := hc
    rw [List.mem_map] at hc
    obtain ⟨z, _, rfl⟩ := hc
    rw [List.mem_range'_1] at hx
    exact waterCellUpdSyncFrom_noop _ 1 waterCorner x z (gget_corner_vel x z)
      (gget_corner_heights_ne _ _ (by omega)) (gget_corner_heights_ne _ _ (by omega))
      (gget_corner_heights_ne _ _ (by omega)) (gget_corner_heights_ne _ _ (by omega))
      (gget_corner_heights_ne _ _ (by omega))
  rw [hnoopA]
  simp only [List.flatMap_cons, List.flatMap_nil, List.append_nil,
    List.map_append, List.map_cons, List.map_nil]
  rw [List.foldl_append, List.foldl_append, List.foldl_append]
  have hnoopR61 : ((List.range' 1 60).map (fun z => ((61:ℕ), z))).foldl
      (waterCellUpdSyncFrom waterCorner.heights 1) waterCorner = waterCorner := by
    apply foldl_fix
    intro c hc
    rw [List.mem_map] at hc
    obtain ⟨z, hz, rfl⟩ := hc
    rw [List.mem_range'_1] at hz
    exact waterCellUpdSyncFrom_noop _ 1 waterCorner 61 z (gget_corner_vel _ _)
      (gget_corner_heights_ne _ _ (by omega)) (gget_corner_heights_ne _ _ (by omega))
      (gget_corner_heights_ne _ _ (by omega)) (gget_corner_heights_ne _ _ (by omega))
      (gget_corner_heights_ne _ _ (by omega))
  rw [hnoopR61]
  have h6161 : waterCellUpdSyncFrom waterCorner.heights 1 waterCorner (61, 61) =
      waterCorner :=
    waterCellUpdSyncFrom_noop _ 1 waterCorner 61 61 (gget_corner_vel _ _)
      (gget_corner_heights_ne _ _ (by omega)) (gget_corner_heights_ne _ _ (by omega))
      (gget_corner_heights_ne _ _ (by omega)) (gget_corner_heights_ne _ _ (by omega))
      (gget_corner_heights_ne _ _ (by omega))
  have hstepB : waterCellUpdSyncFrom waterCorner.heights 1 waterCorner (61, 62) =
      waterCornerB := by
    unfold waterCellUpdSyncFrom
    simp only []
    rw [show (61:ℕ) - 1 = 60 from rfl, show (61:ℕ) + 1 = 62 from rfl,
        show (62:ℕ) - 1 = 61 from rfl, show (62:ℕ) + 1 = 63 from rfl]
    rw [gget_corner_heights_ne 60 62 (by omega),
        gget_corner_heights_self,
        gget_corner_heights_ne 61 61 (by omega),
        gget_corner_heights_ne 61 63 (by omega),
        gget_corner_heights_ne 61 62 (by omega),
        gget_corner_vel 61 62]
    unfold waterCornerB
    norm_num [WAVE_SPEED, DAMPING]
  have e1 : List.foldl (waterCellUpdSyncFrom waterCorner.heights 1) waterCorner
      [((61:ℕ), (61:ℕ)), ((61:ℕ), (62:ℕ))] = waterCornerB := by
    rw [show List.foldl (waterCellUpdSyncFrom waterCorner.heights 1) waterCorner
        [((61:ℕ), (61:ℕ)), ((61:ℕ), (62:ℕ))] =
        waterCellUpdSyncFrom waterCorner.heights 1
          (waterCellUpdSyncFrom waterCorner.heights 1 waterCorner (61, 61)) (61, 62)
        from rfl]
    rw [h6161]
    exact hstepB
  rw [e1]
  have hnoopR62 : ((List.range' 1 60).map (fun z => ((62:ℕ), z))).foldl
      (waterCellUpdSyncFrom waterCorner.heights 1) waterCornerB = waterCornerB := by
    apply foldl_fix
    intro c hc
    rw [List.mem_map] at hc
    obtain ⟨z, hz, rfl⟩ := hc
    rw [List.mem_range'_1] at hz
    exact waterCellUpdSyncFrom_noop _ 1 waterCornerB 62 z
      (gget_cornerB_vel _ _ (by omega))
      (gget_corner_heights_ne _ _ (by omega)) (gget_corner_heights_ne _ _ (by omega))
      (gget_corner_heights_ne _ _ (by omega)) (gget_corner_heights_ne _ _ (by omega))
      (gget_corner_heights_ne _ _ (by omega))
  rw [hnoopR62]
  have hstepC : waterCellUpdSyncFrom waterCorner.heights 1 waterCornerB (62, 61) =
      waterCornerC := by
    unfold waterCellUpdSyncFrom
    simp only []
    rw [show (62:ℕ) - 1 = 61 from rfl, show (62:ℕ) + 1 = 63 from rfl,
        show (61:ℕ) - 1 = 60 from rfl, show (61:ℕ) + 1 = 62 from rfl]
    rw [gget_corner_heights_ne 61 61 (by omega),
        gget_corner_heights_ne 63 61 (by omega),
        gget_corner_heights_ne 62 60 (by omega),
        gget_corner_heights_self,
        gget_corner_heights_ne 62 61 (by omega),
        gget_cornerB_vel 62 61 (by omega)]
    show ({ heights := gset waterCornerB.heights 62 61 _,
            velocities := gset waterCornerB.velocities 62 61 _ } : WaterState) = _
    rw [show gget waterCornerB.heights 62 61 = 0 from
      gget_cornerB_heights_ne 62 61 (by omega) (by omega)]
    unfold waterCornerC
    norm_num [WAVE_SPEED, DAMPING]
  rw [show List.foldl (waterCellUpdSyncFrom waterCorner.heights 1) waterCornerB
      [((62:ℕ), (61:ℕ)), ((62:ℕ), (62:ℕ))] =
      waterCellUpdSyncFrom waterCorner.heights 1
        (waterCellUpdSyncFrom waterCorner.heights 1 waterCornerB (62, 61)) (62, 62)
      from rfl]
  rw [hstepC]
  unfold waterCellUpdSyncFrom
  simp only []
  rw [show (62:ℕ) - 1 = 61 from rfl, show (62:ℕ) + 1 = 63 from rfl]
  rw [gget_corner_heights_ne 61 62 (by omega),
      gget_corner_heights_ne 63 62 (by omega),
      gget_corner_heights_ne 62 61 (by omega),
      gget_corner_heights_ne 62 63 (by omega),
      gget_corner_heights_self,
      gget_cornerC_vel 62 62 (by omega) (by omega)]
  rw [gget_cornerC_heights_62_62]
  norm_num [WAVE_SPEED, DAMPING]

/-- Claim C9: the in-place scan makes a cell Laplacian read current-tick
heights of its already scanned neighbors, so the in-place step and the
synchronous step (every Laplacian from the previous tick heights only)
genuinely differ: on the concrete state waterCorner (unit height at the
interior cell (62, 62), everything else at rest) they produce different
states — the in-place velocity at (62, 62) is -119599/80000 while the
synchronous one is -199/100. -/
theorem c9_inplace_differs_from_sync :
    updateWaterPhysics 1 waterCorner ≠ updateWaterPhysicsSync 1 waterCorner := by
  intro h
  rw [water_c9_inplace, water_c9_sync] at h
  have h2 := congrArg (fun st => gget st.velocities 62 62) h
  simp only [] at h2
  have hsz : Sized waterCornerC.velocities :=
    sized_gset (sized_gset sized_zeros _ _ _) _ _ _
  rw [gget_gset_self_sized hsz _ (by norm_num) (by norm_num),
      gget_gset_self_sized hsz _ (by norm_num) (by norm_num)] at h2
  norm_num at h2

/-- Amended claim C7: for a query x strictly outside the x-range of the
sampled curve points (strictly below every point or strictly above every
point), the lookup loop never finds a bracketing segment and the function
returns the JS value undefined — a normal return, NOT an OutOfRange error
(the source has no throw at all). -/
theorem c7_lookup_out_of_range (pts : List Vec3) (x : ℝ)
    (h : (∀ p ∈ pts, x < p.x) ∨ (∀ p ∈ pts, p.x < x)) :
    FishGeometry.getPoint pts x = .undefinedValue := by
  induction pts with
  | nil => rfl
  | cons i1 rest ih =>
    cases rest with
    | nil => rfl
    | cons i2 rest2 =>
      show (if i1.x ≤ x ∧ x ≤ i2.x then _ else FishGeometry.getPoint (i2 :: rest2) x)
        = LookupOutcome.undefinedValue
      rcases h with h | h
      · rw [if_neg (fun hc => absurd hc.1 (not_le.mpr (h i1 (by simp))))]
        exact ih (Or.inl (fun p hp => h p (by simp [hp])))
      · rw [if_neg (fun hc => absurd hc.2 (not_le.mpr (h i2 (by simp))))]
        exact ih (Or.inr (fun p hp => h p (by simp [hp])))

/-- Witness for c7_lookup_out_of_range: the query 2 is strictly above the
x-range [0, 1] of a concrete two-point polyline. -/
theorem c7_lookup_out_of_range_witness :
    ((∀ p ∈ [(⟨0, 0, 0⟩ : Vec3), ⟨1, 0, 0⟩], (2:ℝ) < p.x) ∨
      (∀ p ∈ [(⟨0, 0, 0⟩ : Vec3), ⟨1, 0, 0⟩], p.x < (2:ℝ))) ∧
    FishGeometry.getPoint [⟨0, 0, 0⟩, ⟨1, 0, 0⟩] 2 = .undefinedValue := by
  have h : (∀ p ∈ [(⟨0, 0, 0⟩ : Vec3), ⟨1, 0, 0⟩], (2:ℝ) < p.x) ∨
      (∀ p ∈ [(⟨0, 0, 0⟩ : Vec3), ⟨1, 0, 0⟩], p.x < (2:ℝ)) := by
    right
    intro p hp
    simp only [List.mem_cons, List.not_mem_nil, or_false] at hp
    rcases hp with rfl | rfl <;> norm_num
  exact ⟨h, c7_lookup_out_of_range _ 2 h⟩

/-- Counterexample to claim C7 as stated: querying x = 2 strictly outside the
sampled x-range [0, 1] makes the source lookup return the JS value undefined
by falling through its loop — a normal return, which is not the claimed
OutOfRange failure (the second conjunct shows the outcome differs from any
raised error by constructor disjointness). -/
theorem c7_counterexample :
    FishGeometry.getPoint [⟨0, 0, 0⟩, ⟨1, 0, 0⟩] 2 = .undefinedValue ∧
    (LookupOutcome.undefinedValue ≠ LookupOutcome.raised "OutOfRange") := by
  constructor
  · show (if (0:ℝ) ≤ 2 ∧ (2:ℝ) ≤ 1 then _ else _) = _
    rw [if_neg (by norm_num)]
    rfl
  · intro h
    exact LookupOutcome.noConfusion h

theorem targetsInv_removeFish {s : SimState} (h : TargetsInv s) :
    TargetsInv (removeFish s) := by
  obtain ⟨hlen, hsome⟩ := h
  constructor
  · show s.targets.dropLast.length = s.fishData.dropLast.length
    rw [List.length_dropLast, List.length_dropLast, hlen]
  · intro o ho
    exact hsome o (List.dropLast_subset _ ho)

theorem targetsInv_addFish {s : SimState} (f : Fish) (t : Vec3)
    (h : TargetsInv s) : TargetsInv (addFish f t s) := by
  obtain ⟨hlen, hsome⟩ := h
  unfold addFish pickNewTarget jsSet
  simp only [List.length_append]
  rw [if_neg (by simp [hlen])]
  constructor
  · simp only [List.length_append, List.length_replicate, hlen]
    simp
  · intro o ho
    rw [List.mem_append] at ho
    rcases ho with ho | ho
    · rw [List.mem_append] at ho
      rcases ho with ho | ho
      · exact hsome o ho
      · rw [hlen] at ho
        simp at ho
    · simp at ho
      rw [ho]
      rfl

theorem targetsInv_retarget {s : SimState} (i : ℕ) (t : Vec3)
    (hi : i < s.fishData.length) (h : TargetsInv s) :
    TargetsInv (pickNewTarget i t s) := by
  obtain ⟨hlen, hsome⟩ := h
  unfold pickNewTarget jsSet
  rw [if_pos (by omega)]
  constructor
  · simp [List.length_set, hlen]
  · intro o ho
    rcases List.mem_or_eq_of_mem_set ho with ho | ho
    · exact hsome o ho
    · rw [ho]
      rfl

theorem targetsInv_updateFishCount (count : ℕ) (mkFish : ℕ → Fish)
    (mkTarget : ℕ → Vec3) :
    ∀ (n : ℕ) (s : SimState),
      (s.fishData.length - count) + (count - s.fishData.length) ≤ n →
      TargetsInv s → TargetsInv (updateFishCount count mkFish mkTarget s) := by
  intro n
  induction n with
  | zero =>
    intro s hn h
    rw [updateFishCount]
    rw [if_neg (by omega), if_neg (by omega)]
    exact h
  | succ m ih =>
    intro s hn h
    rw [updateFishCount]
    by_cases h1 : count < s.fishData.length
    · rw [if_pos h1]
      apply ih
      · have : (removeFish s).fishData.length = s.fishData.length - 1 := by
          show s.fishData.dropLast.length = _
          rw [List.length_dropLast]
        omega
      · exact targetsInv_removeFish h
    · rw [if_neg h1]
      by_cases h2 : s.fishData.length < count
      · rw [if_pos h2]
        apply ih
        · have : (addFish (mkFish s.fishData.length) (mkTarget s.fishData.length)
              s).fishData.length = s.fishData.length + 1 := by
            show ((s.fishData ++ [mkFish s.fishData.length])).length = _
            rw [List.length_append]
            rfl
          omega
        · exact targetsInv_addFish _ _ h
      · rw [if_neg h2]
        exact h

/-- Claim C10: in every reachable state the targets list and the fishData
list have equal length (adding an agent appends exactly one target, removing
an agent pops exactly one target slot, retargeting overwrites in place), and
every live agent index has a defined target slot. -/
theorem c10_targets_parallel (s : SimState) (h : Reachable s) :
    s.targets.length = s.fishData.length ∧
    ∀ i, i < s.fishData.length → (s.targets.getD i none).isSome := by
  have hinv : TargetsInv s := by
    induction h with
    | init => exact ⟨rfl, by intro o ho; simp at ho⟩
    | popEdit count mkFish mkTarget hr ih =>
      exact targetsInv_updateFishCount count mkFish mkTarget _ _ (le_refl _) ih
    | retarget i t hi hr ih => exact targetsInv_retarget i t hi ih
  refine ⟨hinv.1, ?_⟩
  intro i hi
  have hilen : i < s.targets.length := by rw [hinv.1]; exact hi
  have : s.targets.getD i none ∈ s.targets := by
    rw [List.getD_eq_getElem _ _ hilen]
    exact List.getElem_mem hilen
  exact hinv.2 _ this

/-- Witness for c10_targets_parallel: grow the population from empty to 2
with concrete creation inputs; the reachable state has 2 fish and 2 filled
target slots. -/
theorem c10_targets_parallel_witness :
    Reachable (updateFishCount 2 (fun _ => ⟨Vec3.zero, Vec3.zero, Vec3.zero, 1, 1⟩)
      (fun _ => Vec3.zero) { fishData := [], targets := [] }) ∧
    ((updateFishCount 2 (fun _ => ⟨Vec3.zero, Vec3.zero, Vec3.zero, 1, 1⟩)
      (fun _ => Vec3.zero) { fishData := [], targets := [] }).targets.length =
     (updateFishCount 2 (fun _ => ⟨Vec3.zero, Vec3.zero, Vec3.zero, 1, 1⟩)
      (fun _ => Vec3.zero) { fishData := [], targets := [] }).fishData.length ∧
     ∀ i, i < (updateFishCount 2 (fun _ => ⟨Vec3.zero, Vec3.zero, Vec3.zero, 1, 1⟩)
      (fun _ => Vec3.zero) { fishData := [], targets := [] }).fishData.length →
      ((updateFishCount 2 (fun _ => ⟨Vec3.zero, Vec3.zero, Vec3.zero, 1, 1⟩)
        (fun _ => Vec3.zero) { fishData := [], targets := [] }).targets.getD i
          none).isSome) := by
  have hr : Reachable (updateFishCount 2
      (fun _ => ⟨Vec3.zero, Vec3.zero, Vec3.zero, 1, 1⟩)
      (fun _ => Vec3.zero) { fishData := [], targets := [] }) :=
    Reachable.popEdit 2 _ _ Reachable.init
  exact ⟨hr, c10_targets_parallel _ hr⟩

theorem mergeGeometries_loop_length (gs : List BufferGeom) :
    ∀ acc : BufferGeom,
      (gs.foldl (fun acc g =>
        { position := acc.position ++ g.position,
          parts := acc.parts ++ g.parts,
          index := acc.index ++ g.index.map (fun i => i + acc.position.length) })
        acc).position.length
      = acc.position.length + (gs.map (fun g => g.position.length)).sum := by
  induction gs with
  | nil => intro acc; simp
  | cons g rest ih =>
    intro acc
    rw [List.foldl_cons, ih]
    simp only [List.map_cons, List.sum_cons, List.length_append]
    omega

theorem mergeGeometries_loop_valid (gs : List BufferGeom)
    (hgs : ∀ g ∈ gs, ∀ i ∈ g.index, i < g.position.length) :
    ∀ acc : BufferGeom, (∀ i ∈ acc.index, i < acc.position.length) →
      ∀ i ∈ (gs.foldl (fun acc g =>
        { position := acc.position ++ g.position,
          parts := acc.parts ++ g.parts,
          index := acc.index ++ g.index.map (fun i => i + acc.position.length) })
        acc).index,
        i < (gs.foldl (fun acc g =>
        { position := acc.position ++ g.position,
          parts := acc.parts ++ g.parts,
          index := acc.index ++ g.index.map (fun i => i + acc.position.length) })
        acc).position.length := by
  induction gs with
  | nil => intro acc hacc; exact hacc
  | cons g rest ih =>
    intro acc hacc
    rw [List.foldl_cons]
    apply ih
    · intro g' hg'
      exact hgs g' (by simp [hg'])
    · intro i hi
      simp only [List.mem_append, List.mem_map] at hi
      simp only [List.length_append]
      rcases hi with hi | ⟨j, hj, rfl⟩
      · have := hacc i hi
        omega
      · have := hgs g (by simp) j hj
        omega

/-- Claim C8: merging sub-geometries produces a vertex buffer whose count is
the sum of the sub-geometry vertex counts, and every merged index references
a vertex strictly below that total, provided each sub-geometry index was
valid for its own vertices; moreover the PlaneGeometry grid index used by
every sub-mesh of createFishGeometry (body frame stack and all fins) only
references vertices below its (gridX+1)*(gridY+1) vertex count. -/
theorem c8_merged_mesh_counts (gs : List BufferGeom)
    (h : ∀ g ∈ gs, ∀ i ∈ g.index, i < g.position.length) :
    (mergeGeometries gs).position.length
      = (gs.map (fun g => g.position.length)).sum ∧
    (∀ i ∈ (mergeGeometries gs).index, i < (mergeGeometries gs).position.length) ∧
    (∀ gx gy : ℕ, ∀ i ∈ planeIndices gx gy, i < (gx + 1) * (gy + 1)) := by
  refine ⟨?_, ?_, ?_⟩
  · rw [show mergeGeometries gs = gs.foldl _ _ from rfl,
      mergeGeometries_loop_length]
    simp
  · exact mergeGeometries_loop_valid gs h _ (by intro i hi; simp at hi)
  · intro gx gy i hi
    unfold planeIndices at hi
    rw [List.mem_flatMap] at hi
    obtain ⟨iy, hiy, hi⟩ := hi
    rw [List.mem_flatMap] at hi
    obtain ⟨ix, hix, hi⟩ := hi
    rw [List.mem_range] at hiy hix
    have hmul : (gx + 1) * (iy + 1) ≤ (gx + 1) * gy := by
      exact Nat.mul_le_mul_left _ hiy
    have hmul2 : (gx + 1) * iy ≤ (gx + 1) * gy := by
      exact Nat.mul_le_mul_left _ (by omega)
    simp only [List.mem_cons, List.not_mem_nil, or_false] at hi
    have hexp : (gx + 1) * (gy + 1) = (gx + 1) * gy + gx + 1 := by ring
    rcases hi with rfl | rfl | rfl | rfl | rfl | rfl
    · have : (gx + 1) * (iy + 1) = (gx + 1) * iy + gx + 1 := by ring
      omega
    · have : (gx + 1) * (iy + 1) = (gx + 1) * iy + gx + 1 := by ring
      omega
    · have : (gx + 1) * (iy + 1) = (gx + 1) * iy + gx + 1 := by ring
      omega
    · have : (gx + 1) * (iy + 1) = (gx + 1) * iy + gx + 1 := by ring
      omega
    · have : (gx + 1) * (iy + 1) = (gx + 1) * iy + gx + 1 := by ring
      omega
    · have : (gx + 1) * (iy + 1) = (gx + 1) * iy + gx + 1 := by ring
      omega

/-- Witness for c8_merged_mesh_counts: two concrete sub-geometries (a
two-vertex segment and a one-vertex point list) with valid indices merge
into a three-vertex geometry with all indices in range. -/
theorem c8_merged_mesh_counts_witness :
    (∀ g ∈ [demoGeomA, demoGeomB], ∀ i ∈ g.index, i < g.position.length) ∧
    ((mergeGeometries [demoGeomA, demoGeomB]).position.length
      = ([demoGeomA, demoGeomB].map (fun g => g.position.length)).sum ∧
      (∀ i ∈ (mergeGeometries [demoGeomA, demoGeomB]).index,
        i < (mergeGeometries [demoGeomA, demoGeomB]).position.length) ∧
      (∀ gx gy : ℕ, ∀ i ∈ planeIndices gx gy, i < (gx + 1) * (gy + 1))) := by
  have h : ∀ g ∈ [demoGeomA, demoGeomB], ∀ i ∈ g.index, i < g.position.length := by
    intro g hg
    simp only [List.mem_cons, List.not_mem_nil, or_false] at hg
    rcases hg with rfl | rfl
    · intro i hi
      simp only [demoGeomA, List.mem_cons, List.not_mem_nil, or_false] at hi
      rcases hi with rfl | rfl <;> simp [demoGeomA]
    · intro i hi
      simp only [demoGeomB, List.mem_cons, List.not_mem_nil, or_false] at hi
      rcases hi with rfl
      simp [demoGeomB]
  exact ⟨h, c8_merged_mesh_counts _ h⟩

theorem getSpacedPoints_length (pts : List Vec3) (S : ℕ) :
    (ThreeCurve.getSpacedPoints pts S).length = S + 1 := by
  unfold ThreeCurve.getSpacedPoints
  rw [List.length_map, List.length_range]

theorem cubicCalc_zero (c : ℝ × ℝ × ℝ × ℝ) :
    ThreeCurve.cubicCalc c 0 = c.1 := by
  unfold ThreeCurve.cubicCalc
  ring

theorem cubicCalc_nonuniform_zero (x0 x1 x2 x3 dt0 dt1 dt2 : ℝ) :
    ThreeCurve.cubicCalc (ThreeCurve.nonuniformCoeffs x0 x1 x2 x3 dt0 dt1 dt2) 0
      = x1 := by
  unfold ThreeCurve.nonuniformCoeffs ThreeCurve.cubicCoeffs
  rw [cubicCalc_zero]

theorem cubicCalc_nonuniform_one (x0 x1 x2 x3 dt0 dt1 dt2 : ℝ) :
    ThreeCurve.cubicCalc (ThreeCurve.nonuniformCoeffs x0 x1 x2 x3 dt0 dt1 dt2) 1
      = x2 := by
  unfold ThreeCurve.nonuniformCoeffs ThreeCurve.cubicCoeffs ThreeCurve.cubicCalc
  ring

theorem catRomParams_zero (l : ℕ) (h : 2 ≤ l) :
    ThreeCurve.catRomParams l 0 = ((0:ℤ), (0:ℝ)) := by
  unfold ThreeCurve.catRomParams
  simp only [mul_zero, Int.floor_zero, Int.cast_zero, sub_zero]
  rw [if_neg (fun hc => by omega)]

theorem catRomParams_one (l : ℕ) (_h : 2 ≤ l) :
    ThreeCurve.catRomParams l 1 = (((l:ℤ) - 2, (1:ℝ))) := by
  unfold ThreeCurve.catRomParams
  have hcast : ((l : ℝ) - 1) * 1 = (((l : ℤ) - 1 : ℤ) : ℝ) := by
    push_cast
    ring
  simp only [hcast, Int.floor_intCast, sub_self]
  rw [if_pos ⟨trivial, trivial⟩]

/-- The Catmull-Rom evaluation at parameter 0 is the first control point
(the cubic of the first segment evaluated at weight 0). -/
theorem catRomGetPoint_zero (pts : List Vec3) (h : 2 ≤ pts.length) :
    ThreeCurve.catRomGetPoint pts 0 = pts.getD 0 Vec3.zero := by
  unfold ThreeCurve.catRomGetPoint
  simp only [catRomParams_zero _ h]
  rw [cubicCalc_nonuniform_zero, cubicCalc_nonuniform_zero, cubicCalc_nonuniform_zero]
  rw [show Int.toNat 0 = 0 from rfl]

/-- The Catmull-Rom evaluation at parameter 1 is the last control point: the
(weight 0, intPoint = l-1) case is shifted onto the previous segment with
weight 1, and the cubic at weight 1 yields its p2 = points[l-1]. -/
theorem catRomGetPoint_one (pts : List Vec3) (h : 2 ≤ pts.length) :
    ThreeCurve.catRomGetPoint pts 1 = pts.getD (pts.length - 1) Vec3.zero := by
  unfold ThreeCurve.catRomGetPoint
  simp only [catRomParams_one _ h]
  rw [cubicCalc_nonuniform_one, cubicCalc_nonuniform_one, cubicCalc_nonuniform_one]
  rw [show ((pts.length : ℤ) - 2 + 1).toNat = pts.length - 1 by omega]

theorem distanceTo_nonneg (a b : Vec3) : 0 ≤ a.distanceTo b :=
  Real.sqrt_nonneg _

theorem eq_of_distanceTo_eq_zero {a b : Vec3} (h : a.distanceTo b = 0) : a = b := by
  have h0 : Real.sqrt ((a.sub b).lengthSq) = 0 := h
  have hsq : (a.sub b).lengthSq = 0 :=
    (Real.sqrt_eq_zero (Vec3.lengthSq_nonneg _)).mp h0
  have hz : a.sub b = Vec3.zero := Vec3.lengthSq_eq_zero_iff.mp hsq
  have hx := congrArg Vec3.x hz
  have hy := congrArg Vec3.y hz
  have hzz := congrArg Vec3.z hz
  simp only [Vec3.sub, Vec3.zero] at hx hy hzz
  exact Vec3.ext_iff'.mpr ⟨by linarith, by linarith, by linarith⟩

theorem arcSum_zero (pts : List Vec3) : arcSum pts 0 = 0 := rfl

theorem arcSum_succ (pts : List Vec3) (k : ℕ) :
    arcSum pts (k + 1) = arcSum pts k +
      (ThreeCurve.catRomGetPoint pts (((k + 1 : ℕ) : ℝ) / 200)).distanceTo
        (ThreeCurve.catRomGetPoint pts (((k : ℕ) : ℝ) / 200)) := rfl

theorem arcSum_le_succ (pts : List Vec3) (k : ℕ) :
    arcSum pts k ≤ arcSum pts (k + 1) := by
  rw [arcSum_succ]
  have hd := distanceTo_nonneg
    (ThreeCurve.catRomGetPoint pts (((k + 1 : ℕ) : ℝ) / 200))
    (ThreeCurve.catRomGetPoint pts (((k : ℕ) : ℝ) / 200))
  linarith

theorem arcSum_mono (pts : List Vec3) :
    ∀ a b : ℕ, a ≤ b → arcSum pts a ≤ arcSum pts b := by
  intro a b
  induction b with
  | zero =>
    intro h
    have ha : a = 0 := by omega
    subst ha
    exact le_rfl
  | succ b ih =>
    intro h
    by_cases hab : a ≤ b
    · exact le_trans (ih hab) (arcSum_le_succ pts b)
    · have ha : a = b + 1 := by omega
      subst ha
      exact le_rfl

theorem getLengths_loop_eq (pts : List Vec3) : ∀ k : ℕ, k ≤ 200 →
    (List.range' 1 k).foldl
      (fun (acc : List ℝ × ℝ × Vec3) (p : ℕ) =>
        let current := ThreeCurve.catRomGetPoint pts ((p : ℝ) / 200)
        let sum := acc.2.1 + current.distanceTo acc.2.2
        (acc.1 ++ [sum], sum, current))
      ([0], 0, ThreeCurve.catRomGetPoint pts 0)
    = ((List.range (k + 1)).map (fun (j : ℕ) => arcSum pts j),
       arcSum pts k, ThreeCurve.catRomGetPoint pts ((k : ℝ) / 200)) := by
  intro k
  induction k with
  | zero =>
    intro _
    rw [show List.range' 1 0 = [] from rfl, List.foldl_nil]
    rw [show List.range 1 = [0] from rfl]
    norm_num [arcSum]
  | succ k ih =>
    intro hk
    rw [List.range'_concat 1 k]
    rw [List.foldl_append, ih (by omega)]
    rw [List.foldl_cons, List.foldl_nil]
    simp only [show 1 + 1 * k = k + 1 from by omega]
    simp only [List.range_succ, List.map_append, List.map_cons, List.map_nil]
    rw [arcSum_succ]

theorem getLengths_eq_map (pts : List Vec3) :
    ThreeCurve.getLengths pts
      = (List.range 201).map (fun (j : ℕ) => arcSum pts j) := by
  unfold ThreeCurve.getLengths
  rw [getLengths_loop_eq pts 200 le_rfl]

theorem getLengths_length (pts : List Vec3) :
    (ThreeCurve.getLengths pts).length = 201 := by
  rw [getLengths_eq_map]
  simp

theorem getLengths_getD (pts : List Vec3) (j : ℕ) (hj : j ≤ 200) :
    (ThreeCurve.getLengths pts).getD j 0 = arcSum pts j := by
  rw [getLengths_eq_map]
  rw [List.getD_eq_getElem _ _
    (by simp only [List.length_map, List.length_range]; omega)]
  simp only [List.getElem_map, List.getElem_range]

theorem sample_eq_of_arcSum_eq (pts : List Vec3) :
    ∀ a b : ℕ, a ≤ b → arcSum pts a = arcSum pts b →
      ThreeCurve.catRomGetPoint pts ((b : ℝ) / 200)
        = ThreeCurve.catRomGetPoint pts ((a : ℝ) / 200) := by
  intro a b
  induction b with
  | zero =>
    intro hab _
    have ha : a = 0 := by omega
    subst ha
    rfl
  | succ b ih =>
    intro hab heq
    by_cases hab2 : a ≤ b
    · have h1 : arcSum pts a ≤ arcSum pts b := arcSum_mono pts a b hab2
      have hba : arcSum pts b ≤ arcSum pts a := by
        rw [heq]
        exact arcSum_le_succ pts b
      have hb : arcSum pts a = arcSum pts b := le_antisymm h1 hba
      have hstep : arcSum pts (b + 1) = arcSum pts b := by rw [← heq, hb]
      rw [arcSum_succ] at hstep
      have hdist : (ThreeCurve.catRomGetPoint pts (((b + 1 : ℕ) : ℝ) / 200)).distanceTo
          (ThreeCurve.catRomGetPoint pts (((b : ℕ) : ℝ) / 200)) = 0 := by
        linarith
      calc ThreeCurve.catRomGetPoint pts (((b + 1 : ℕ) : ℝ) / 200)
          = ThreeCurve.catRomGetPoint pts (((b : ℕ) : ℝ) / 200) :=
            eq_of_distanceTo_eq_zero hdist
        _ = ThreeCurve.catRomGetPoint pts ((a : ℝ) / 200) := ih hab2 hb
    · have ha : a = b + 1 := by omega
      subst ha
      rfl

theorem bsearchGo_exact_floor (arc : ℤ → ℝ) (target : ℝ) (low : ℤ) :
    ∀ (n : ℕ) (high : ℤ), (high + 1 - low).toNat ≤ n → low ≤ high →
      (∀ j : ℤ, low ≤ j → j ≤ high → target ≤ arc j) →
      arc low = target →
      low ≤ ThreeCurve.bsearchGo arc target low high ∧
      ThreeCurve.bsearchGo arc target low high ≤ high ∧
      arc (ThreeCurve.bsearchGo arc target low high) = target := by
  intro n
  induction n with
  | zero =>
    intro high hn hlh _ _
    exfalso
    omega
  | succ n ih =>
    intro high hn hlh hge hlow
    unfold ThreeCurve.bsearchGo
    rw [if_pos hlh]
    simp only []
    have hdnn : 0 ≤ (high - low) / 2 := Int.ediv_nonneg (by omega) (by norm_num)
    have hdle : (high - low) / 2 ≤ high - low := Int.ediv_le_self _ (by omega)
    have hi1 : low ≤ low + (high - low) / 2 := by omega
    have hi2 : low + (high - low) / 2 ≤ high := by omega
    have hge_i := hge _ hi1 hi2
    rw [if_neg (not_lt.mpr hge_i)]
    by_cases htlt : target < arc (low + (high - low) / 2)
    · rw [if_pos htlt]
      have hne : low ≠ low + (high - low) / 2 := by
        intro he
        rw [← he, hlow] at htlt
        exact lt_irrefl _ htlt
      obtain ⟨ha, hb, hc⟩ := ih (low + (high - low) / 2 - 1) (by omega) (by omega)
        (fun j hj1 hj2 => hge j hj1 (by omega)) hlow
      exact ⟨ha, by omega, hc⟩
    · rw [if_neg htlt]
      exact ⟨hi1, hi2, le_antisymm (not_lt.mp htlt) hge_i⟩

theorem bsearchGo_exact_ceil (arc : ℤ → ℝ) (target : ℝ) (high : ℤ) :
    ∀ (n : ℕ) (low : ℤ), (high + 1 - low).toNat ≤ n → low ≤ high →
      (∀ j : ℤ, low ≤ j → j ≤ high → arc j ≤ target) →
      arc high = target →
      low ≤ ThreeCurve.bsearchGo arc target low high ∧
      ThreeCurve.bsearchGo arc target low high ≤ high ∧
      arc (ThreeCurve.bsearchGo arc target low high) = target := by
  intro n
  induction n with
  | zero =>
    intro low hn hlh _ _
    exfalso
    omega
  | succ n ih =>
    intro low hn hlh hle hhigh
    unfold ThreeCurve.bsearchGo
    rw [if_pos hlh]
    simp only []
    have hdnn : 0 ≤ (high - low) / 2 := Int.ediv_nonneg (by omega) (by norm_num)
    have hdle : (high - low) / 2 ≤ high - low := Int.ediv_le_self _ (by omega)
    have hi1 : low ≤ low + (high - low) / 2 := by omega
    have hi2 : low + (high - low) / 2 ≤ high := by omega
    have hle_i := hle _ hi1 hi2
    by_cases hlt : arc (low + (high - low) / 2) < target
    · rw [if_pos hlt]
      have hne : low + (high - low) / 2 ≠ high := by
        intro he
        rw [he, hhigh] at hlt
        exact lt_irrefl _ hlt
      obtain ⟨ha, hb, hc⟩ := ih (low + (high - low) / 2 + 1) (by omega) (by omega)
        (fun j hj1 hj2 => hle j (by omega) hj2) hhigh
      exact ⟨by omega, hb, hc⟩
    · rw [if_neg hlt]
      have heqi : arc (low + (high - low) / 2) = target :=
        le_antisymm hle_i (not_lt.mp hlt)
      rw [if_neg (by intro hc; rw [heqi] at hc; exact lt_irrefl _ hc)]
      exact ⟨hi1, hi2, heqi⟩

theorem getUtoTmapping_zero_spec (pts : List Vec3) :
    ∃ m : ℕ, m ≤ 200 ∧ arcSum pts m = 0 ∧
      ThreeCurve.getUtoTmapping pts 0 = (m : ℝ) / 200 := by
  unfold ThreeCurve.getUtoTmapping
  simp only [getLengths_length, zero_mul]
  rw [show ((201 : ℕ) : ℤ) - 1 = 200 from by norm_num]
  obtain ⟨h1, h2, h3⟩ := bsearchGo_exact_floor
    (fun j => (ThreeCurve.getLengths pts).getD j.toNat 0) 0 0 201 200
    (by omega) (by omega)
    (fun j hj1 hj2 => by
      show (0 : ℝ) ≤ (ThreeCurve.getLengths pts).getD j.toNat 0
      rw [getLengths_getD pts j.toNat (by omega)]
      have hmono := arcSum_mono pts 0 j.toNat (by omega)
      rw [arcSum_zero] at hmono
      exact hmono)
    (by show (ThreeCurve.getLengths pts).getD 0 0 = 0
        rw [getLengths_getD pts 0 (by omega), arcSum_zero])
  set B := ThreeCurve.bsearchGo
    (fun j => (ThreeCurve.getLengths pts).getD j.toNat 0) 0 0 200 with hB
  refine ⟨B.toNat, by omega, ?_, ?_⟩
  · rw [← getLengths_getD pts _ (by omega)]
    exact h3
  · rw [if_pos h3]
    rw [show (((201 : ℕ) : ℝ)) - 1 = 200 from by norm_num]
    rw [show ((B.toNat : ℕ) : ℝ) = ((B : ℤ) : ℝ) from by
      exact_mod_cast Int.toNat_of_nonneg h1]

theorem getUtoTmapping_one_spec (pts : List Vec3) :
    ∃ m : ℕ, m ≤ 200 ∧ arcSum pts m = arcSum pts 200 ∧
      ThreeCurve.getUtoTmapping pts 1 = (m : ℝ) / 200 := by
  unfold ThreeCurve.getUtoTmapping
  simp only [getLengths_length, one_mul]
  rw [show ((201 : ℕ) : ℤ) - 1 = 200 from by norm_num]
  obtain ⟨h1, h2, h3⟩ := bsearchGo_exact_ceil
    (fun j => (ThreeCurve.getLengths pts).getD j.toNat 0)
    ((ThreeCurve.getLengths pts).getD ((200 : ℤ)).toNat 0) 200 201 0
    (by omega) (by omega)
    (fun j hj1 hj2 => by
      show (ThreeCurve.getLengths pts).getD j.toNat 0
        ≤ (ThreeCurve.getLengths pts).getD ((200 : ℤ)).toNat 0
      rw [getLengths_getD pts j.toNat (by omega),
        getLengths_getD pts ((200 : ℤ)).toNat (by omega)]
      exact arcSum_mono pts j.toNat ((200 : ℤ)).toNat (by omega))
    rfl
  set B := ThreeCurve.bsearchGo
    (fun j => (ThreeCurve.getLengths pts).getD j.toNat 0)
    ((ThreeCurve.getLengths pts).getD ((200 : ℤ)).toNat 0) 0 200 with hB
  refine ⟨B.toNat, by omega, ?_, ?_⟩
  · have h4 : (ThreeCurve.getLengths pts).getD B.toNat 0
        = (ThreeCurve.getLengths pts).getD ((200 : ℤ)).toNat 0 := h3
    rw [getLengths_getD pts _ (by omega),
      getLengths_getD pts ((200 : ℤ)).toNat (by omega)] at h4
    exact h4
  · rw [if_pos h3]
    rw [show (((201 : ℕ) : ℝ)) - 1 = 200 from by norm_num]
    rw [show ((B.toNat : ℕ) : ℝ) = ((B : ℤ) : ℝ) from by
      exact_mod_cast Int.toNat_of_nonneg h1]

theorem getPointAt_zero (pts : List Vec3) (h2 : 2 ≤ pts.length) :
    ThreeCurve.getPointAt pts 0 = pts.getD 0 Vec3.zero := by
  obtain ⟨m, hm200, hm0, hmap⟩ := getUtoTmapping_zero_spec pts
  unfold ThreeCurve.getPointAt
  rw [hmap]
  have hcol := sample_eq_of_arcSum_eq pts 0 m (by omega)
    (by rw [arcSum_zero, hm0])
  rw [hcol]
  rw [show (((0 : ℕ) : ℝ)) / 200 = 0 from by norm_num]
  exact catRomGetPoint_zero pts h2

theorem getPointAt_one (pts : List Vec3) (h2 : 2 ≤ pts.length) :
    ThreeCurve.getPointAt pts 1 = pts.getD (pts.length - 1) Vec3.zero := by
  obtain ⟨m, hm200, hmeq, hmap⟩ := getUtoTmapping_one_spec pts
  unfold ThreeCurve.getPointAt
  rw [hmap]
  rw [← sample_eq_of_arcSum_eq pts m 200 hm200 hmeq]
  rw [show (((200 : ℕ) : ℝ)) / 200 = 1 from by norm_num]
  exact catRomGetPoint_one pts h2

/-- C3: for every control curve with at least 2 control points and requested
division count S at least 1, getSpacedPoints returns S + 1 sample points (not
S as the claim states), and its first and last samples equal the first and
last control points exactly: the arc-length table is a cumulative sum of
nonnegative chord lengths, the binary search for u = 0 and u = 1 always ends
in the exact-hit branch at an index whose sample coincides with sample 0
(resp. 200), and those samples are the control endpoints. -/
theorem c3_sampler (pts : List Vec3) (S : ℕ) (h2 : 2 ≤ pts.length) (hS : 1 ≤ S) :
    (ThreeCurve.getSpacedPoints pts S).length = S + 1 ∧
    (ThreeCurve.getSpacedPoints pts S).getD 0 Vec3.zero = pts.getD 0 Vec3.zero ∧
    (ThreeCurve.getSpacedPoints pts S).getD S Vec3.zero
      = pts.getD (pts.length - 1) Vec3.zero := by
  refine ⟨getSpacedPoints_length pts S, ?_, ?_⟩
  · unfold ThreeCurve.getSpacedPoints
    rw [List.getD_eq_getElem _ _
      (by simp only [List.length_map, List.length_range]; omega)]
    simp only [List.getElem_map, List.getElem_range]
    rw [show (((0 : ℕ) : ℝ)) / ((S : ℕ) : ℝ) = 0 by norm_num]
    exact getPointAt_zero pts h2
  · unfold ThreeCurve.getSpacedPoints
    rw [List.getD_eq_getElem _ _
      (by simp only [List.length_map, List.length_range]; omega)]
    simp only [List.getElem_map, List.getElem_range]
    rw [show (((S : ℕ) : ℝ)) / ((S : ℕ) : ℝ) = 1 from
      div_self (Nat.cast_ne_zero.mpr (by omega))]
    exact getPointAt_one pts h2

/-- Witness for C3 on the two-point demo curve with S = 100: the hypotheses
hold concretely and the sampler returns 101 points whose first and last
entries are the two control points. -/
theorem c3_sampler_witness :
    (ThreeCurve.getSpacedPoints demoPts 100).length = 100 + 1 ∧
    (ThreeCurve.getSpacedPoints demoPts 100).getD 0 Vec3.zero
      = demoPts.getD 0 Vec3.zero ∧
    (ThreeCurve.getSpacedPoints demoPts 100).getD 100 Vec3.zero
      = demoPts.getD (demoPts.length - 1) Vec3.zero :=
  c3_sampler demoPts 100 (by norm_num [demoPts]) (by norm_num)

/-- Counterexample to the exact sample-count part of C3: with S = 100 the
sampler returns 101 points, not 100 (three.js getSpacedPoints samples
d / divisions for d = 0 .. divisions inclusive). -/
theorem c3_counterexample :
    (ThreeCurve.getSpacedPoints demoPts 100).length ≠ 100 := by
  rw [getSpacedPoints_length]
  omega

end Aquarium
